import Mathlib

/-!
Verification of the llm-triage-copilot core: the OpenRouter completion
orchestrator (`src/lib/llm/providers/openrouter.ts`, pooled-key version)
and the run-metrics aggregator (`src/lib/metrics/store.ts`,
`src/app/api/metrics/route.ts`, `src/app/api/triage/route.ts`).

The TypeScript sources are shallowly embedded: network calls become an
environment function from call index to call outcome, the mutable
`attempts` array becomes an explicitly threaded list, JavaScript numbers
become rationals (with an explicit NaN case where `Number()` parsing can
produce one), and thrown exceptions become explicit control-flow results.
-/

namespace Triage

namespace Metrics

/-- A JavaScript number as it appears in the metrics read endpoint:
either an exact rational value, or NaN (which `Number()` yields on a
non-numeric query-string such as `limit=abc`). -/
inductive JSNum where
  | num (q : ℚ)
  | nan
deriving DecidableEq

/-- JavaScript `Math.min(a, b)`: NaN-propagating minimum. -/
def jsMin (a b : JSNum) : JSNum :=
  match a, b with
  | .num x, .num y => .num (min x y)
  | _, _ => .nan

/-- JavaScript `Math.max(a, b)`: NaN-propagating maximum. -/
def jsMax (a b : JSNum) : JSNum :=
  match a, b with
  | .num x, .num y => .num (max x y)
  | _, _ => .nan

/-- ECMAScript truncation toward zero, as used by `ToIntegerOrInfinity`. -/
def jsTrunc (q : ℚ) : ℤ :=
  if 0 ≤ q then ⌊q⌋ else ⌈q⌉

/-- Number of elements produced by `array.slice(0, limit)` on an array of
length `len`: NaN converts to 0, a negative limit counts from the end,
fractional limits truncate toward zero, and the result is capped at
`len`. -/
def sliceEnd (limit : JSNum) (len : Nat) : Nat :=
  match limit with
  | .nan => 0
  | .num q =>
    let t := jsTrunc q
    if t < 0 then ((len : ℤ) + t).toNat else min t.toNat len

/-- The engine tag of a run record: `"llm" | "dspy"`. -/
inductive Engine where
  | llm
  | dspy
deriving DecidableEq

/-- `TriageRunMetric` from `src/lib/metrics/store.ts`: one immutable
record per completed triage invocation.  Optional TypeScript fields are
`Option`s; JavaScript numeric fields are rationals. -/
structure TriageRunMetric where
  ts : ℚ
  traceId : String
  useRag : Bool
  primaryModel : String
  fallbackModel : String
  usedModel : Option String
  engine : Option Engine
  totalMs : ℚ
  ragMs : Option ℚ
  llmMs : Option ℚ
  dspyMs : Option ℚ
  attempts : Option ℚ
  retries : Option ℚ
  validationOk : Bool
deriving DecidableEq

/-- The process-wide metrics store: `{ runs: TriageRunMetric[]; max: number }`. -/
structure Store where
  runs : List TriageRunMetric
  max : Nat
deriving DecidableEq

/-- The store created on first touch: `{ runs: [], max: 200 }`. -/
def initialStore : Store :=
  { runs := [], max := 200 }

/-- `recordRun(run)`: `store.runs.unshift(run)` followed by truncation to
`store.max` entries when the buffer has grown past capacity
(`store.runs.length = store.max` on a JS array drops the tail). -/
def recordRun (run : TriageRunMetric) (s : Store) : Store :=
  let runs := run :: s.runs
  { s with runs := if runs.length > s.max then runs.take s.max else runs }

/-- `listRuns(limit)`: `store.runs.slice(0, limit)`. -/
def listRuns (limit : JSNum) (s : Store) : List TriageRunMetric :=
  s.runs.take (sliceEnd limit s.runs.length)

/-- `percentile(values, p)` from `src/lib/metrics/store.ts`: nearest-rank
percentile — 0 on the empty list, otherwise the ascending sort indexed at
`Math.max(0, Math.min(Math.ceil((p / 100) * n) - 1, n - 1))`. -/
def percentile (values : List ℚ) (p : ℚ) : ℚ :=
  if values.length = 0 then 0
  else
    let sorted := values.mergeSort
    let idx : ℤ := ⌈p / 100 * (values.length : ℚ)⌉ - 1
    sorted.getD (max 0 (min idx ((values.length : ℤ) - 1))).toNat 0

/-- The `runs` component of the metrics GET endpoint
(`src/app/api/metrics/route.ts`): the caller-supplied limit
(`Number(url.searchParams.get("limit") ?? "50")`) is passed through
`Math.max(1, Math.min(200, limit))` and handed to `listRuns`. -/
def metricsGETruns (limit : JSNum) (s : Store) : List TriageRunMetric :=
  listRuns (jsMax (.num 1) (jsMin (.num 200) limit)) s

end Metrics

namespace Route

/-- A caller-supplied model field of the triage POST body: either a JSON
string or any non-string JSON value. -/
inductive ModelInput where
  | str (s : String)
  | other
deriving DecidableEq

/-- `ALLOWED_MODELS` from `src/app/api/triage/route.ts`: the fixed
allow-list of four model identifiers. -/
def ALLOWED_MODELS : List String :=
  ["meta-llama/llama-3.2-3b-instruct:free",
   "amazon/nova-2-lite-v1:free",
   "mistralai/devstral-2512:free",
   "mistralai/mistral-7b-instruct-v0.2"]

/-- `pickModel(input, defaultValue)`: the input is used only when it is a
string belonging to `ALLOWED_MODELS`; anything else falls back to the
default. -/
def pickModel (input : ModelInput) (defaultValue : String) : String :=
  match input with
  | .str s => if s ∈ ALLOWED_MODELS then s else defaultValue
  | .other => defaultValue

/-- The pair `(pickedPrimaryModel, pickedFallbackModel)` computed by the
triage POST handler and echoed into both the JSON response and the run
record passed to `recordRun`. -/
def pickedModels (modelPrimary modelFallback : ModelInput)
    (defaultPrimary defaultFallback : String) : String × String :=
  (pickModel modelPrimary defaultPrimary, pickModel modelFallback defaultFallback)

end Route

namespace Metrics

/-- A sample run record used to build concrete stores. -/
def sampleRun : TriageRunMetric :=
  { ts := 0, traceId := "t", useRag := false, primaryModel := "p",
    fallbackModel := "f", usedModel := none, engine := none, totalMs := 0,
    ragMs := none, llmMs := none, dspyMs := none, attempts := none,
    retries := none, validationOk := true }

/-- A run record distinguished only by its timestamp, giving an injective
stream of records to insert. -/
def stampedRun (i : ℕ) : TriageRunMetric :=
  { sampleRun with ts := (i : ℚ) }

end Metrics

namespace Orchestrator

/-- Outcome of one physical network call to the chat-completions
endpoint, as consumed by `OpenRouterProvider.chat`.  `http` carries the
HTTP status, measured latency, body text, and (modelled as a black box)
the result of JSON-parsing a body and extracting
`data?.choices?.[0]?.message?.content ?? ""`: `none` when the non-empty
body is not valid JSON (`JSON.parse` throws), `some text` otherwise (with
`""` when the body is empty or the path is missing).  `timeout` is a call
aborted by the per-attempt deadline (AbortError); `fetchErr` is any other
transport failure, carrying its message. -/
inductive Response where
  | http (status : Nat) (latencyMs : Nat) (body : String) (content : Option String)
  | timeout (latencyMs : Nat)
  | fetchErr (msg : String) (latencyMs : Nat)
deriving DecidableEq

/-- `AttemptEvent` from the provider: one entry of the `attempts` trace.
Fields absent in a given `attempts.push` (the empty-completion events
omit `apiKeyIndex`; most events omit `note`) are `none`. -/
structure AttemptEvent where
  apiKeyIndex : Option Nat
  model : String
  attempt : Nat
  status : Nat
  latencyMs : Nat
  note : Option String
deriving DecidableEq

/-- `maxRetriesPerModel = 2`: additional retries after the first attempt. -/
def maxRetriesPerModel : Nat := 2

/-- `requestTimeoutMs = 25000`. -/
def requestTimeoutMs : Nat := 25000

/-- `retryable = new Set([429, 502, 503, 504])`. -/
def retryableSet : List Nat := [429, 502, 503, 504]

/-- `fallbackable = new Set([404, 429, 502, 503, 504])`. -/
def fallbackableSet : List Nat := [404, 429, 502, 503, 504]

/-- JavaScript `text.slice(0, n)` on strings: the first `n` characters. -/
def strTake (s : String) (n : Nat) : String :=
  ⟨s.data.take n⟩

/-- JavaScript `String(text).trim()`: strip leading and trailing
whitespace. -/
def jsTrim (s : String) : String :=
  ⟨((s.data.dropWhile Char.isWhitespace).reverse.dropWhile Char.isWhitespace).reverse⟩

/-- Whether one string starts with another. -/
def strStartsWith (s pre : String) : Bool :=
  pre.data.isPrefixOf s.data

/-- `bodyText?.slice(0, 400) || "(empty body)"`. -/
def bodySnippet (body : String) : String :=
  let s := strTake body 400
  if s = "" then "(empty body)" else s

/-- The note attached to a backoff event: `backoff ${800 * 2 ** attempt}ms`. -/
def backoffNote (attempt : Nat) : String :=
  "backoff " ++ toString (800 * 2 ^ attempt) ++ "ms"

/-- Result returned by `chat`: the TypeScript function either returns a
`ChatResult` (text, used model, trace) or throws an error that carries
the message of the last recorded failure and the full attempts trace
(`(err as any).trace = { attempts }`). -/
inductive ChatOutcome where
  | success (text : String) (usedModel : String) (trace : List AttemptEvent)
  | failure (msg : String) (trace : List AttemptEvent)
deriving DecidableEq

/-- The attempts trace carried by either outcome. -/
def ChatOutcome.trace : ChatOutcome → List AttemptEvent
  | .success _ _ t => t
  | .failure _ t => t

/-- Control-flow result of processing one attempt inside the
`for attempt` loop: `retry` continues the attempt loop (after a backoff),
`toNextModel` breaks out of it to the next candidate model, and `finish`
returns from `chat`. -/
inductive AttemptDecision where
  | retry (trace : List AttemptEvent) (lastErr : Option String)
  | toNextModel (trace : List AttemptEvent) (lastErr : Option String)
  | finish (outcome : ChatOutcome)
deriving DecidableEq

/-- The trace accumulated at an attempt decision. -/
def AttemptDecision.trace : AttemptDecision → List AttemptEvent
  | .retry t _ => t
  | .toNextModel t _ => t
  | .finish o => o.trace

/-- The `catch` branch of the attempt body for a non-AbortError exception
`e` (a transport error from `fetch`, or an error thrown inside the `try`
itself, which the same `catch` receives): push a `fetch_error` attempt
record, then either back off and retry or record the final error and
break to the next model. -/
def caughtFetchError (k : Nat) (m : String) (a : Nat)
    (tr : List AttemptEvent) (le : Option String) (lat : Nat)
    (emsg : String) : AttemptDecision :=
  let tr1 := tr ++ [⟨some k, m, a, 0, lat, some ("fetch_error: " ++ emsg)⟩]
  if a < maxRetriesPerModel then
    .retry (tr1 ++ [⟨some k, m, a, 0, 0, some (backoffNote a)⟩]) le
  else
    .toNextModel tr1
      (some ("OpenRouter fetch error on model=" ++ m ++ " (key[" ++
        toString k ++ "]): " ++ emsg))

/-- One iteration of the innermost `for attempt` loop of
`OpenRouterProvider.chat` (`src/unnamed/part_003`), processing the
outcome `r` of the physical call issued with credential index `k`, model
`m`, attempt number `a`, accumulated trace `tr` and last error `le`.
Faithful to the source, including the fact that the hard-error `throw`
for a non-2xx status outside the 404/retryable sets, the `throw lastErr`
in the exhausted-retryable branch, and the non-JSON-success `throw` are
all raised inside the `try` block and are therefore caught by its own
`catch`, which treats them as retryable fetch errors. -/
def attemptStep (r : Response) (k : Nat) (m : String) (a : Nat)
    (tr : List AttemptEvent) (le : Option String) : AttemptDecision :=
  match r with
  | .http st lat body content =>
    let tr1 := tr ++ [⟨some k, m, a, st, lat, none⟩]
    if st ∈ retryableSet then
      if a < maxRetriesPerModel then
        .retry (tr1 ++ [⟨some k, m, a, st, 0, some (backoffNote a)⟩]) le
      else
        let msg1 := "OpenRouter " ++ toString st ++ " on model=" ++ m ++
          " (key[" ++ toString k ++ "]): " ++ bodySnippet body
        if st ∈ fallbackableSet then .toNextModel tr1 (some msg1)
        else caughtFetchError k m a tr1 (some msg1) lat msg1
    else if st = 404 then
      .toNextModel tr1
        (some ("OpenRouter 404 on model=" ++ m ++ " (key[" ++ toString k ++
          "]): " ++ bodySnippet body))
    else if 200 ≤ st ∧ st ≤ 299 then
      match content with
      | none =>
        caughtFetchError k m a tr1 le lat
          ("OpenRouter returned non-JSON success response on model=" ++ m ++
            " (key[" ++ toString k ++ "]): " ++ bodySnippet body)
      | some text =>
        if jsTrim text = "" then
          let tr2 := tr1 ++ [⟨none, m, a, 200, 0, some "empty_completion"⟩]
          if a < maxRetriesPerModel then
            .retry (tr2 ++ [⟨none, m, a, 0, 0, some (backoffNote a)⟩]) le
          else
            .toNextModel tr2
              (some ("OpenRouter returned empty completion on model=" ++ m))
        else
          .finish (.success text m tr1)
    else
      caughtFetchError k m a tr1 le lat
        ("OpenRouter error " ++ toString st ++ " on model=" ++ m ++
          " (key[" ++ toString k ++ "]): " ++ bodySnippet body)
  | .timeout lat =>
    let tr1 := tr ++
      [⟨some k, m, a, 0, lat, some ("timeout " ++ toString requestTimeoutMs ++ "ms")⟩]
    if a < maxRetriesPerModel then
      .retry (tr1 ++ [⟨some k, m, a, 0, 0, some (backoffNote a)⟩]) le
    else
      .toNextModel tr1
        (some ("OpenRouter timeout on model=" ++ m ++ " (key[" ++
          toString k ++ "])"))
  | .fetchErr msg lat => caughtFetchError k m a tr le lat msg

/-- Result of running the attempt loop (or the model loop) to completion:
either `chat` returned, or control fell through to the next model (or
credential) with an updated call index, trace and last error. -/
inductive ModelStep where
  | done (outcome : ChatOutcome)
  | next (callIdx : Nat) (trace : List AttemptEvent) (lastErr : Option String)
deriving DecidableEq

/-- The trace carried by a model-loop step. -/
def ModelStep.trace : ModelStep → List AttemptEvent
  | .done o => o.trace
  | .next _ tr _ => tr

/-- The `for (attempt = 0; attempt <= maxRetriesPerModel; ...)` loop.
The environment `env` maps the index of each physical call to its
outcome; `c` is the index of the next call to issue.  The fuel is
`maxRetriesPerModel + 1 - a` at every real call site, so the `0` case is
unreachable. -/
def attemptLoop (env : Nat → Response) (k : Nat) (m : String) :
    Nat → Nat → Nat → List AttemptEvent → Option String → ModelStep
  | 0, _, c, tr, le => .next c tr le
  | fuel + 1, a, c, tr, le =>
    match attemptStep (env c) k m a tr le with
    | .finish o => .done o
    | .toNextModel tr1 le1 => .next (c + 1) tr1 le1
    | .retry tr1 le1 => attemptLoop env k m fuel (a + 1) (c + 1) tr1 le1

/-- The `for (const model of modelsToTry)` loop for one credential. -/
def modelLoop (env : Nat → Response) (k : Nat) :
    List String → Nat → List AttemptEvent → Option String → ModelStep
  | [], c, tr, le => .next c tr le
  | m :: ms, c, tr, le =>
    match attemptLoop env k m (maxRetriesPerModel + 1) 0 c tr le with
    | .done o => .done o
    | .next c1 tr1 le1 => modelLoop env k ms c1 tr1 le1

/-- The `switch_api_key` marker event pushed when credential `k` failed
to satisfy the request across every candidate model. -/
def keyFailoverEvent (k : Nat) : AttemptEvent :=
  ⟨some k, "(key_failover)", 0, 0, 0, some "switch_api_key"⟩

/-- The outer `for (apiKeyIndex ...)` loop over the credential pool; on
exhaustion the accumulated trace is attached to the thrown error
(`lastErr?.message ?? "OpenRouter request failed."`). -/
def keyLoop (env : Nat → Response) (models : List String) :
    List Nat → Nat → List AttemptEvent → Option String → ChatOutcome
  | [], _, tr, le => .failure (le.getD "OpenRouter request failed.") tr
  | k :: ks, c, tr, le =>
    match modelLoop env k models c tr le with
    | .done o => o
    | .next c1 tr1 le1 => keyLoop env models ks c1 (tr1 ++ [keyFailoverEvent k]) le1

/-- `modelsToTry = [primary, ...(fallback ? [fallback] : [])]`. -/
def modelsToTry (primary : String) (fallback : Option String) : List String :=
  primary :: (match fallback with | some f => [f] | none => [])

/-- `OpenRouterProvider.chat` over a pool of `numKeys` credentials: the
three-level (credential x model x attempt) search, with the `n`-th
physical network call resolved by `env n`. -/
def chat (numKeys : Nat) (primary : String) (fallback : Option String)
    (env : Nat → Response) : ChatOutcome :=
  keyLoop env (modelsToTry primary fallback) (List.range numKeys) 0 [] none

/-- A trace event is a backoff-sleep marker exactly when its note starts
with `backoff `. -/
def isBackoffEvent (e : AttemptEvent) : Bool :=
  match e.note with
  | some n => strStartsWith n "backoff "
  | none => false

/-- The number of attempt records (non-backoff entries) in a trace. -/
def attemptRecordCount (tr : List AttemptEvent) : Nat :=
  (tr.filter (fun e => !isBackoffEvent e)).length

/-- A call outcome the source classifies as retryable within the same
model: a retryable HTTP status, a timeout, or a transport error. -/
def RetryableResponse : Response → Prop
  | .http st _ _ _ => st ∈ retryableSet
  | .timeout _ => True
  | .fetchErr _ _ => True

/-- A concrete environment in which the first call returns HTTP 400 (a
status outside the 404/retryable sets) and every later call succeeds
with the non-empty text `ok`. -/
def envFatal400 : Nat → Response := fun i =>
  if i = 0 then .http 400 5 "bad request" none else .http 200 3 "body" (some "ok")

/-- A concrete environment in which every call times out. -/
def envAllTimeout : Nat → Response := fun _ => .timeout 1

/-- A concrete environment: one 429, then success with text `hi`. -/
def env429Once : Nat → Response := fun i =>
  if i = 0 then .http 429 5 "rate" none else .http 200 3 "body" (some "hi")

/-- A concrete environment: credential 0 sees only 429s (three calls),
then credential 1 succeeds with text `hi`. -/
def env429ThenOk : Nat → Response := fun i =>
  if i < 3 then .http 429 5 "rate" none else .http 200 3 "body" (some "hi")

/-- A concrete environment whose first call returns HTTP 404. -/
def env404First : Nat → Response := fun i =>
  if i = 0 then .http 404 7 "nf" none else .http 200 3 "b" (some "yo")

/-- A concrete environment: three 2xx responses with whitespace-only
text, then success with text `yo`. -/
def envEmpty3 : Nat → Response := fun i =>
  if i < 3 then .http 200 2 "b" (some "  ") else .http 200 3 "b" (some "yo")

end Orchestrator

end Triage

namespace Triage.Metrics

theorem stampedRun_injective : Function.Injective stampedRun := by
  intro a b h
  have hts : (a : ℚ) = (b : ℚ) := congrArg TriageRunMetric.ts h
  exact_mod_cast hts

theorem recordRun_runs (run : TriageRunMetric) (s : Store) :
    (recordRun run s).runs = (run :: s.runs).take s.max := by
  by_cases h : (run :: s.runs).length > s.max
  · simp [recordRun, h]
  · simp only [recordRun, h, if_false]
    exact (List.take_of_length_le (by omega)).symm

theorem recordRun_max (run : TriageRunMetric) (s : Store) :
    (recordRun run s).max = s.max := by
  by_cases h : (run :: s.runs).length > s.max <;> simp [recordRun, h]

theorem take_append_take (xs ys : List TriageRunMetric) (c : Nat) :
    (xs ++ ys.take c).take c = (xs ++ ys).take c := by
  rw [List.take_append_eq_append_take, List.take_append_eq_append_take,
    List.take_take]
  congr 2
  omega

theorem foldl_recordRun : ∀ (l : List TriageRunMetric) (s : Store),
    s.runs.length ≤ s.max →
    l.foldl (fun acc r => recordRun r acc) s =
      ⟨(l.reverse ++ s.runs).take s.max, s.max⟩ := by
  intro l
  induction l with
  | nil =>
    intro s h
    simp only [List.foldl_nil, List.reverse_nil, List.nil_append]
    cases s with
    | mk runs mx => simp_all [List.take_of_length_le]
  | cons r l ih =>
    intro s h
    rw [List.foldl_cons, ih (recordRun r s)
      (by rw [recordRun_runs, recordRun_max]; simp)]
    rw [recordRun_runs, recordRun_max, take_append_take]
    simp

end Triage.Metrics

/-- C7: the percentile function returns 0 on the empty list, and otherwise
the element of the ascending sort at nearest-rank index
`ceil(p/100 * n) - 1` clamped to `[0, n-1]`; in particular on
`[100, 200, 300, 400]` it yields p50 = 200 and p95 = 400. -/
theorem triage_C7 :
    (∀ p : ℚ, Triage.Metrics.percentile [] p = 0) ∧
    (∀ (values : List ℚ) (p : ℚ), values ≠ [] →
      ∃ sorted : List ℚ, values.Perm sorted ∧ sorted.Sorted (· ≤ ·) ∧
        Triage.Metrics.percentile values p =
          sorted.getD (max 0 (min (⌈p / 100 * (values.length : ℚ)⌉ - 1)
            ((values.length : ℤ) - 1))).toNat 0) ∧
    Triage.Metrics.percentile [100, 200, 300, 400] 50 = 200 ∧
    Triage.Metrics.percentile [100, 200, 300, 400] 95 = 400 := by
  refine ⟨fun p => rfl, fun values p hne => ?_, ?_, ?_⟩
  · refine ⟨values.mergeSort, (List.mergeSort_perm values _).symm,
      List.sorted_mergeSort' values, ?_⟩
    have hlen : values.length ≠ 0 := by simpa using hne
    simp only [Triage.Metrics.percentile, hlen, if_false]
  · have hs : List.mergeSort [(100 : ℚ), 200, 300, 400] = [100, 200, 300, 400] :=
      List.mergeSort_eq_self (by decide)
    have hc : (⌈(50 : ℚ) / 100 * (4 : ℚ)⌉ : ℤ) = 2 := by norm_num
    simp [Triage.Metrics.percentile, hs, hc]
  · have hs : List.mergeSort [(100 : ℚ), 200, 300, 400] = [100, 200, 300, 400] :=
      List.mergeSort_eq_self (by decide)
    have hc : (⌈(95 : ℚ) / 100 * (4 : ℚ)⌉ : ℤ) = 4 := by
      rw [Int.ceil_eq_iff]
      norm_num
    simp [Triage.Metrics.percentile, hs, hc]

/-- C7 witness: the general nearest-rank clause applied to the concrete
nonempty list `[3, 1]` at p = 50. -/
theorem triage_C7_witness :
    ([(3 : ℚ), 1] ≠ []) ∧
    (∃ sorted : List ℚ, [(3 : ℚ), 1].Perm sorted ∧ sorted.Sorted (· ≤ ·) ∧
      Triage.Metrics.percentile [(3 : ℚ), 1] 50 =
        sorted.getD (max 0 (min (⌈(50 : ℚ) / 100 * (([(3 : ℚ), 1].length : ℚ))⌉ - 1)
          (([(3 : ℚ), 1].length : ℤ) - 1))).toNat 0) :=
  ⟨by decide, triage_C7.2.1 [(3 : ℚ), 1] 50 (by decide)⟩

/-- C8: the metrics buffer never exceeds its capacity of 200 records under
any sequence of recordRun calls from the initial store, recordRun inserts
at the front and truncates to capacity, and after inserting 205 pairwise
distinct runs, listRuns(200) returns exactly the 200 most recent runs,
most-recent-first, with the 5 oldest absent. -/
theorem triage_C8 : ∀ f : ℕ → Triage.Metrics.TriageRunMetric,
    Function.Injective f →
    (∀ l : List Triage.Metrics.TriageRunMetric,
      ((l.foldl (fun acc r => Triage.Metrics.recordRun r acc)
        Triage.Metrics.initialStore).runs.length ≤ 200)) ∧
    (∀ run s, (Triage.Metrics.recordRun run s).runs = (run :: s.runs).take s.max) ∧
    (Triage.Metrics.listRuns (.num 200)
        (((List.range 205).map f).foldl (fun acc r => Triage.Metrics.recordRun r acc)
          Triage.Metrics.initialStore) =
      ((List.range 205).map f).reverse.take 200) ∧
    ((Triage.Metrics.listRuns (.num 200)
        (((List.range 205).map f).foldl (fun acc r => Triage.Metrics.recordRun r acc)
          Triage.Metrics.initialStore)).length = 200) ∧
    (∀ i < 5, f i ∉ Triage.Metrics.listRuns (.num 200)
        (((List.range 205).map f).foldl (fun acc r => Triage.Metrics.recordRun r acc)
          Triage.Metrics.initialStore)) := by
  intro f hf
  have hfold : ∀ l : List Triage.Metrics.TriageRunMetric,
      l.foldl (fun acc r => Triage.Metrics.recordRun r acc) Triage.Metrics.initialStore =
        ⟨(l.reverse ++ []).take 200, 200⟩ := fun l =>
    Triage.Metrics.foldl_recordRun l Triage.Metrics.initialStore (by simp [Triage.Metrics.initialStore])
  have hlist : Triage.Metrics.listRuns (.num 200)
      (((List.range 205).map f).foldl (fun acc r => Triage.Metrics.recordRun r acc)
        Triage.Metrics.initialStore) =
      ((List.range 205).map f).reverse.take 200 := by
    rw [hfold]
    simp only [List.append_nil, Triage.Metrics.listRuns]
    have hlen : (((List.range 205).map f).reverse.take 200).length = 200 := by
      simp
    rw [hlen]
    have : Triage.Metrics.sliceEnd (.num 200) 200 = 200 := by
      simp [Triage.Metrics.sliceEnd, Triage.Metrics.jsTrunc]
    rw [this, List.take_take]
    norm_num
  refine ⟨?_, Triage.Metrics.recordRun_runs, hlist, ?_, ?_⟩
  · intro l
    rw [hfold]
    simp
  · rw [hlist]; simp
  · intro i hi hmem
    rw [hlist] at hmem
    rw [← List.map_reverse, ← List.map_take] at hmem
    obtain ⟨j, hj, hji⟩ := List.mem_map.mp hmem
    have hji' : j = i := hf hji
    subst hji'
    have : j ∉ (List.range 205).reverse.take 200 := by
      interval_cases j <;> decide
    exact this hj

/-- C8 witness: the theorem applied to the injective stream of runs
distinguished by timestamp. -/
theorem triage_C8_witness :
    Function.Injective Triage.Metrics.stampedRun ∧
    ((Triage.Metrics.listRuns (.num 200)
        (((List.range 205).map Triage.Metrics.stampedRun).foldl
          (fun acc r => Triage.Metrics.recordRun r acc)
          Triage.Metrics.initialStore)).length = 200) :=
  ⟨Triage.Metrics.stampedRun_injective,
    (triage_C8 Triage.Metrics.stampedRun Triage.Metrics.stampedRun_injective).2.2.2.1⟩

/-- C9 counterexample: the metrics GET endpoint with the non-numeric limit
parameter (Number("abc") = NaN) on a one-record store returns an empty
runs list, so the returned list is not always between min(1, buffer size)
and 200 records: NaN survives Math.max(1, Math.min(200, ·)) and
slice(0, NaN) yields zero elements. -/
theorem triage_C9_counterexample :
    (Triage.Metrics.metricsGETruns .nan
      (Triage.Metrics.recordRun Triage.Metrics.sampleRun
        Triage.Metrics.initialStore)).length = 0 ∧
    (Triage.Metrics.recordRun Triage.Metrics.sampleRun
      Triage.Metrics.initialStore).runs.length = 1 := by
  constructor <;> rfl

/-- C9 (amended): for every numeric limit value the limit is clamped to
[1, 200] before being applied, so the returned runs list contains between
min(1, buffer size) and 200 records; a non-numeric limit parses to NaN,
which passes through the clamp unchanged and yields an empty runs list. -/
theorem triage_C9 :
    (∀ (q : ℚ) (s : Triage.Metrics.Store),
      min 1 s.runs.length ≤ (Triage.Metrics.metricsGETruns (.num q) s).length ∧
      (Triage.Metrics.metricsGETruns (.num q) s).length ≤ 200) ∧
    (∀ s : Triage.Metrics.Store, Triage.Metrics.metricsGETruns .nan s = []) := by
  constructor
  · intro q s
    have hclamp : Triage.Metrics.jsMax (.num 1) (Triage.Metrics.jsMin (.num 200) (.num q)) =
        .num (max 1 (min 200 q)) := rfl
    have h1 : (1 : ℚ) ≤ max 1 (min 200 q) := le_max_left 1 _
    have h2 : max 1 (min 200 q) ≤ 200 := by
      rcases le_total 1 (min 200 q) with h | h
      · rw [max_eq_right h]; exact min_le_left _ _
      · rw [max_eq_left h]; norm_num
    set c : ℚ := max 1 (min 200 q) with hc
    have htr : Triage.Metrics.jsTrunc c = ⌊c⌋ := by
      rw [Triage.Metrics.jsTrunc, if_pos (by linarith)]
    have hfl1 : (1 : ℤ) ≤ ⌊c⌋ := by exact_mod_cast Int.le_floor.mpr (by exact_mod_cast h1)
    have hfl2 : ⌊c⌋ ≤ 200 := by
      have := Int.floor_le_floor h2
      simpa using this
    have hend : Triage.Metrics.sliceEnd (.num c) s.runs.length =
        min (⌊c⌋.toNat) s.runs.length := by
      rw [Triage.Metrics.sliceEnd]
      simp only [htr]
      rw [if_neg (by omega)]
    have htn1 : 1 ≤ ⌊c⌋.toNat := by omega
    have htn2 : ⌊c⌋.toNat ≤ 200 := by omega
    constructor
    · rw [Triage.Metrics.metricsGETruns, hclamp, Triage.Metrics.listRuns, hend]
      rw [List.length_take]
      omega
    · rw [Triage.Metrics.metricsGETruns, hclamp, Triage.Metrics.listRuns, hend]
      rw [List.length_take]
      omega
  · intro s
    rfl

/-- C10: a caller-supplied model identifier is used (for both the primary
and the fallback slot, and hence echoed into the response and the run
record) exactly when it is a string in the four-element allow-list; any
other value, including arbitrary strings, is silently replaced by the
corresponding environment default, never rejected. -/
theorem triage_C10 : ∀ (dPrimary dFallback : String)
    (mp mf : Triage.Route.ModelInput),
    (∀ s, mp = .str s → s ∈ Triage.Route.ALLOWED_MODELS →
      (Triage.Route.pickedModels mp mf dPrimary dFallback).1 = s) ∧
    (∀ s, mp = .str s → s ∉ Triage.Route.ALLOWED_MODELS →
      (Triage.Route.pickedModels mp mf dPrimary dFallback).1 = dPrimary) ∧
    (mp = .other → (Triage.Route.pickedModels mp mf dPrimary dFallback).1 = dPrimary) ∧
    (∀ s, mf = .str s → s ∈ Triage.Route.ALLOWED_MODELS →
      (Triage.Route.pickedModels mp mf dPrimary dFallback).2 = s) ∧
    (∀ s, mf = .str s → s ∉ Triage.Route.ALLOWED_MODELS →
      (Triage.Route.pickedModels mp mf dPrimary dFallback).2 = dFallback) ∧
    (mf = .other → (Triage.Route.pickedModels mp mf dPrimary dFallback).2 = dFallback) ∧
    Triage.Route.ALLOWED_MODELS.length = 4 := by
  intro dPrimary dFallback mp mf
  refine ⟨?_, ?_, ?_, ?_, ?_, ?_, rfl⟩
  · rintro s rfl hs
    simp [Triage.Route.pickedModels, Triage.Route.pickModel, hs]
  · rintro s rfl hs
    simp [Triage.Route.pickedModels, Triage.Route.pickModel, hs]
  · rintro rfl
    simp [Triage.Route.pickedModels, Triage.Route.pickModel]
  · rintro s rfl hs
    simp [Triage.Route.pickedModels, Triage.Route.pickModel, hs]
  · rintro s rfl hs
    simp [Triage.Route.pickedModels, Triage.Route.pickModel, hs]
  · rintro rfl
    simp [Triage.Route.pickedModels, Triage.Route.pickModel]

/-- C10 witness: an arbitrary string not in the allow-list is replaced by
the default primary model. -/
theorem triage_C10_witness :
    (Triage.Route.ModelInput.str "not-a-model" = .str "not-a-model" ∧
      "not-a-model" ∉ Triage.Route.ALLOWED_MODELS) ∧
    (Triage.Route.pickedModels (.str "not-a-model") .other "envPrimary" "envFallback").1 =
      "envPrimary" :=
  ⟨⟨rfl, by decide⟩,
    (triage_C10 "envPrimary" "envFallback" (.str "not-a-model") .other).2.1
      "not-a-model" rfl (by decide)⟩


namespace Triage.Orchestrator

theorem retryable_mem_fallbackable {st : Nat} (h : st ∈ retryableSet) :
    st ∈ fallbackableSet := by
  fin_cases h <;> decide

theorem ok_not_retryable {st : Nat} (h : 200 ≤ st ∧ st ≤ 299) :
    st ∉ retryableSet := by
  intro hmem
  fin_cases hmem <;> omega

theorem ok_ne_404 {st : Nat} (h : 200 ≤ st ∧ st ≤ 299) : st ≠ 404 := by
  omega

theorem strStartsWith_backoffNote (a : Nat) :
    strStartsWith (backoffNote a) "backoff " = true := by
  simp only [backoffNote, strStartsWith, List.isPrefixOf_iff_prefix,
    String.data_append, List.append_assoc]
  exact List.prefix_append _ _

theorem strStartsWith_fetchError_note (emsg : String) :
    strStartsWith ("fetch_error: " ++ emsg) "backoff " = false := by
  rw [Bool.eq_false_iff]
  intro h
  have hp : "backoff ".data <+: ("fetch_error: ".data ++ emsg.data) := by
    simp only [strStartsWith, List.isPrefixOf_iff_prefix, String.data_append] at h
    exact h
  have h2 := List.prefix_iff_eq_take.mp hp
  rw [List.take_append_of_le_length (by decide)] at h2
  revert h2
  decide

theorem isBackoffEvent_note (k : Option Nat) (m : String) (a st lat : Nat)
    (n : Option String) :
    isBackoffEvent ⟨k, m, a, st, lat, n⟩ =
      (match n with | some s => strStartsWith s "backoff " | none => false) := rfl

theorem caughtFetchError_lt (k : Nat) (m : String) (a : Nat)
    (tr : List AttemptEvent) (le : Option String) (lat : Nat) (emsg : String)
    (h : a < maxRetriesPerModel) :
    caughtFetchError k m a tr le lat emsg =
      .retry (tr ++ [⟨some k, m, a, 0, lat, some ("fetch_error: " ++ emsg)⟩,
        ⟨some k, m, a, 0, 0, some (backoffNote a)⟩]) le := by
  simp [caughtFetchError, h]

theorem caughtFetchError_ge (k : Nat) (m : String) (a : Nat)
    (tr : List AttemptEvent) (le : Option String) (lat : Nat) (emsg : String)
    (h : ¬ a < maxRetriesPerModel) :
    caughtFetchError k m a tr le lat emsg =
      .toNextModel (tr ++ [⟨some k, m, a, 0, lat, some ("fetch_error: " ++ emsg)⟩])
        (some ("OpenRouter fetch error on model=" ++ m ++ " (key[" ++
          toString k ++ "]): " ++ emsg)) := by
  simp [caughtFetchError, h]

theorem attemptStep_retryable_lt (st lat : Nat) (body : String)
    (content : Option String) (k : Nat) (m : String) (a : Nat)
    (tr : List AttemptEvent) (le : Option String)
    (h1 : st ∈ retryableSet) (h2 : a < maxRetriesPerModel) :
    attemptStep (.http st lat body content) k m a tr le =
      .retry (tr ++ [⟨some k, m, a, st, lat, none⟩,
        ⟨some k, m, a, st, 0, some (backoffNote a)⟩]) le := by
  simp [attemptStep, h1, h2]

theorem attemptStep_retryable_ge (st lat : Nat) (body : String)
    (content : Option String) (k : Nat) (m : String) (a : Nat)
    (tr : List AttemptEvent) (le : Option String)
    (h1 : st ∈ retryableSet) (h2 : ¬ a < maxRetriesPerModel) :
    attemptStep (.http st lat body content) k m a tr le =
      .toNextModel (tr ++ [⟨some k, m, a, st, lat, none⟩])
        (some ("OpenRouter " ++ toString st ++ " on model=" ++ m ++
          " (key[" ++ toString k ++ "]): " ++ bodySnippet body)) := by
  simp [attemptStep, h1, h2, retryable_mem_fallbackable h1]

theorem attemptStep_404 (lat : Nat) (body : String) (content : Option String)
    (k : Nat) (m : String) (a : Nat) (tr : List AttemptEvent) (le : Option String) :
    attemptStep (.http 404 lat body content) k m a tr le =
      .toNextModel (tr ++ [⟨some k, m, a, 404, lat, none⟩])
        (some ("OpenRouter 404 on model=" ++ m ++ " (key[" ++ toString k ++
          "]): " ++ bodySnippet body)) := by
  simp [attemptStep, retryableSet]

theorem attemptStep_hard (st lat : Nat) (body : String) (content : Option String)
    (k : Nat) (m : String) (a : Nat) (tr : List AttemptEvent) (le : Option String)
    (h1 : st ∉ retryableSet) (h4 : st ≠ 404) (h5 : ¬ (200 ≤ st ∧ st ≤ 299)) :
    attemptStep (.http st lat body content) k m a tr le =
      caughtFetchError k m a (tr ++ [⟨some k, m, a, st, lat, none⟩]) le lat
        ("OpenRouter error " ++ toString st ++ " on model=" ++ m ++
          " (key[" ++ toString k ++ "]): " ++ bodySnippet body) := by
  simp [attemptStep, h1, h4, h5]

theorem attemptStep_ok_parseFail (st lat : Nat) (body : String)
    (k : Nat) (m : String) (a : Nat) (tr : List AttemptEvent) (le : Option String)
    (h5 : 200 ≤ st ∧ st ≤ 299) :
    attemptStep (.http st lat body none) k m a tr le =
      caughtFetchError k m a (tr ++ [⟨some k, m, a, st, lat, none⟩]) le lat
        ("OpenRouter returned non-JSON success response on model=" ++ m ++
          " (key[" ++ toString k ++ "]): " ++ bodySnippet body) := by
  simp [attemptStep, ok_not_retryable h5, ok_ne_404 h5, h5]

theorem attemptStep_ok_empty_lt (st lat : Nat) (body text : String)
    (k : Nat) (m : String) (a : Nat) (tr : List AttemptEvent) (le : Option String)
    (h5 : 200 ≤ st ∧ st ≤ 299) (he : jsTrim text = "")
    (h2 : a < maxRetriesPerModel) :
    attemptStep (.http st lat body (some text)) k m a tr le =
      .retry (tr ++ [⟨some k, m, a, st, lat, none⟩,
        ⟨none, m, a, 200, 0, some "empty_completion"⟩,
        ⟨none, m, a, 0, 0, some (backoffNote a)⟩]) le := by
  simp [attemptStep, ok_not_retryable h5, ok_ne_404 h5, h5, he, h2]

theorem attemptStep_ok_empty_ge (st lat : Nat) (body text : String)
    (k : Nat) (m : String) (a : Nat) (tr : List AttemptEvent) (le : Option String)
    (h5 : 200 ≤ st ∧ st ≤ 299) (he : jsTrim text = "")
    (h2 : ¬ a < maxRetriesPerModel) :
    attemptStep (.http st lat body (some text)) k m a tr le =
      .toNextModel (tr ++ [⟨some k, m, a, st, lat, none⟩,
        ⟨none, m, a, 200, 0, some "empty_completion"⟩])
        (some ("OpenRouter returned empty completion on model=" ++ m)) := by
  simp [attemptStep, ok_not_retryable h5, ok_ne_404 h5, h5, he, h2]

theorem attemptStep_ok_success (st lat : Nat) (body text : String)
    (k : Nat) (m : String) (a : Nat) (tr : List AttemptEvent) (le : Option String)
    (h5 : 200 ≤ st ∧ st ≤ 299) (he : jsTrim text ≠ "") :
    attemptStep (.http st lat body (some text)) k m a tr le =
      .finish (.success text m (tr ++ [⟨some k, m, a, st, lat, none⟩])) := by
  simp [attemptStep, ok_not_retryable h5, ok_ne_404 h5, h5, he]

theorem attemptStep_timeout_lt (lat : Nat) (k : Nat) (m : String) (a : Nat)
    (tr : List AttemptEvent) (le : Option String) (h2 : a < maxRetriesPerModel) :
    attemptStep (.timeout lat) k m a tr le =
      .retry (tr ++ [⟨some k, m, a, 0, lat,
          some ("timeout " ++ toString requestTimeoutMs ++ "ms")⟩,
        ⟨some k, m, a, 0, 0, some (backoffNote a)⟩]) le := by
  simp [attemptStep, h2]

theorem attemptStep_timeout_ge (lat : Nat) (k : Nat) (m : String) (a : Nat)
    (tr : List AttemptEvent) (le : Option String) (h2 : ¬ a < maxRetriesPerModel) :
    attemptStep (.timeout lat) k m a tr le =
      .toNextModel (tr ++ [⟨some k, m, a, 0, lat,
          some ("timeout " ++ toString requestTimeoutMs ++ "ms")⟩])
        (some ("OpenRouter timeout on model=" ++ m ++ " (key[" ++
          toString k ++ "])")) := by
  simp [attemptStep, h2]

theorem attemptStep_fetchErr (msg : String) (lat : Nat) (k : Nat) (m : String)
    (a : Nat) (tr : List AttemptEvent) (le : Option String) :
    attemptStep (.fetchErr msg lat) k m a tr le =
      caughtFetchError k m a tr le lat msg := rfl

end Triage.Orchestrator

namespace Triage.Orchestrator

theorem caughtFetchError_shape (k : Nat) (m : String) (a : Nat)
    (tr : List AttemptEvent) (le : Option String) (lat : Nat) (emsg : String) :
    ∃ rest, (caughtFetchError k m a tr le lat emsg).trace =
      tr ++ ⟨some k, m, a, 0, lat, some ("fetch_error: " ++ emsg)⟩ :: rest ∧
      ∀ e ∈ rest, e.apiKeyIndex = some k ∧ e.model = m ∧ e.status = 0 := by
  by_cases h : a < maxRetriesPerModel
  · refine ⟨[⟨some k, m, a, 0, 0, some (backoffNote a)⟩], ?_, ?_⟩
    · rw [caughtFetchError_lt _ _ _ _ _ _ _ h]
      simp [AttemptDecision.trace]
    · simp
  · refine ⟨[], ?_, ?_⟩
    · rw [caughtFetchError_ge _ _ _ _ _ _ _ h]
      simp [AttemptDecision.trace]
    · simp

theorem attemptStep_shape (r : Response) (k : Nat) (m : String) (a : Nat)
    (tr : List AttemptEvent) (le : Option String) :
    ∃ e0 rest, (attemptStep r k m a tr le).trace = tr ++ e0 :: rest ∧
      e0.apiKeyIndex = some k ∧ e0.model = m ∧ e0.attempt = a ∧
      isBackoffEvent e0 = false ∧
      ∀ e ∈ e0 :: rest, e.model = m ∧
        (e.apiKeyIndex = none ∨ e.apiKeyIndex = some k) ∧
        (isBackoffEvent e = true → e.status = 0 ∨ e.status ∈ retryableSet) := by
  cases r with
  | http st lat body content =>
    by_cases h1 : st ∈ retryableSet
    · by_cases h2 : a < maxRetriesPerModel
      · refine ⟨⟨some k, m, a, st, lat, none⟩,
          [⟨some k, m, a, st, 0, some (backoffNote a)⟩], ?_, rfl, rfl, rfl, rfl, ?_⟩
        · rw [attemptStep_retryable_lt _ _ _ _ _ _ _ _ _ h1 h2]
          simp [AttemptDecision.trace]
        · intro e he
          simp only [List.mem_cons, List.not_mem_nil, or_false] at he
          rcases he with rfl | rfl
          · simp [isBackoffEvent_note]
          · simp [isBackoffEvent_note, h1]
      · refine ⟨⟨some k, m, a, st, lat, none⟩, [], ?_, rfl, rfl, rfl, rfl, ?_⟩
        · rw [attemptStep_retryable_ge _ _ _ _ _ _ _ _ _ h1 h2]
          simp [AttemptDecision.trace]
        · intro e he
          simp only [List.mem_cons, List.not_mem_nil, or_false] at he
          rcases he with rfl
          simp [isBackoffEvent_note]
    · by_cases h4 : st = 404
      · subst h4
        refine ⟨⟨some k, m, a, 404, lat, none⟩, [], ?_, rfl, rfl, rfl, rfl, ?_⟩
        · rw [attemptStep_404]
          simp [AttemptDecision.trace]
        · intro e he
          simp only [List.mem_cons, List.not_mem_nil, or_false] at he
          rcases he with rfl
          simp [isBackoffEvent_note]
      · by_cases h5 : 200 ≤ st ∧ st ≤ 299
        · cases content with
          | none =>
            obtain ⟨rest, hrest, hall⟩ := caughtFetchError_shape k m a
              (tr ++ [⟨some k, m, a, st, lat, none⟩]) le lat
              ("OpenRouter returned non-JSON success response on model=" ++ m ++
                " (key[" ++ toString k ++ "]): " ++ bodySnippet body)
            refine ⟨⟨some k, m, a, st, lat, none⟩,
              ⟨some k, m, a, 0, lat, some ("fetch_error: " ++
                ("OpenRouter returned non-JSON success response on model=" ++ m ++
                  " (key[" ++ toString k ++ "]): " ++ bodySnippet body))⟩ :: rest,
              ?_, rfl, rfl, rfl, rfl, ?_⟩
            · rw [attemptStep_ok_parseFail _ _ _ _ _ _ _ _ h5, hrest]
              simp
            · intro e he
              simp only [List.mem_cons] at he
              rcases he with rfl | rfl | he
              · simp [isBackoffEvent_note]
              · simp [isBackoffEvent_note, strStartsWith_fetchError_note]
              · obtain ⟨hk, hm, hs⟩ := hall e he
                exact ⟨hm, Or.inr hk, fun _ => Or.inl hs⟩
          | some text =>
            by_cases hemp : jsTrim text = ""
            · by_cases h2 : a < maxRetriesPerModel
              · refine ⟨⟨some k, m, a, st, lat, none⟩,
                  [⟨none, m, a, 200, 0, some "empty_completion"⟩,
                   ⟨none, m, a, 0, 0, some (backoffNote a)⟩], ?_, rfl, rfl, rfl, rfl, ?_⟩
                · rw [attemptStep_ok_empty_lt _ _ _ _ _ _ _ _ _ h5 hemp h2]
                  simp [AttemptDecision.trace]
                · intro e he
                  simp only [List.mem_cons, List.not_mem_nil, or_false] at he
                  rcases he with rfl | rfl | rfl
                  · simp [isBackoffEvent_note]
                  · simp [isBackoffEvent_note]
                    decide
                  · simp [isBackoffEvent_note]
              · refine ⟨⟨some k, m, a, st, lat, none⟩,
                  [⟨none, m, a, 200, 0, some "empty_completion"⟩], ?_, rfl, rfl, rfl, rfl, ?_⟩
                · rw [attemptStep_ok_empty_ge _ _ _ _ _ _ _ _ _ h5 hemp h2]
                  simp [AttemptDecision.trace]
                · intro e he
                  simp only [List.mem_cons, List.not_mem_nil, or_false] at he
                  rcases he with rfl | rfl
                  · simp [isBackoffEvent_note]
                  · simp [isBackoffEvent_note]
                    decide
            · refine ⟨⟨some k, m, a, st, lat, none⟩, [], ?_, rfl, rfl, rfl, rfl, ?_⟩
              · rw [attemptStep_ok_success _ _ _ _ _ _ _ _ _ h5 hemp]
                simp [AttemptDecision.trace, ChatOutcome.trace]
              · intro e he
                simp only [List.mem_cons, List.not_mem_nil, or_false] at he
                rcases he with rfl
                simp [isBackoffEvent_note]
        · obtain ⟨rest, hrest, hall⟩ := caughtFetchError_shape k m a
            (tr ++ [⟨some k, m, a, st, lat, none⟩]) le lat
            ("OpenRouter error " ++ toString st ++ " on model=" ++ m ++
              " (key[" ++ toString k ++ "]): " ++ bodySnippet body)
          refine ⟨⟨some k, m, a, st, lat, none⟩,
            ⟨some k, m, a, 0, lat, some ("fetch_error: " ++
              ("OpenRouter error " ++ toString st ++ " on model=" ++ m ++
                " (key[" ++ toString k ++ "]): " ++ bodySnippet body))⟩ :: rest,
            ?_, rfl, rfl, rfl, rfl, ?_⟩
          · rw [attemptStep_hard _ _ _ _ _ _ _ _ _ h1 h4 h5, hrest]
            simp
          · intro e he
            simp only [List.mem_cons] at he
            rcases he with rfl | rfl | he
            · simp [isBackoffEvent_note]
            · simp [isBackoffEvent_note, strStartsWith_fetchError_note]
            · obtain ⟨hk, hm, hs⟩ := hall e he
              exact ⟨hm, Or.inr hk, fun _ => Or.inl hs⟩
  | timeout lat =>
    by_cases h2 : a < maxRetriesPerModel
    · refine ⟨⟨some k, m, a, 0, lat,
          some ("timeout " ++ toString requestTimeoutMs ++ "ms")⟩,
        [⟨some k, m, a, 0, 0, some (backoffNote a)⟩], ?_, rfl, rfl, rfl, ?_, ?_⟩
      · rw [attemptStep_timeout_lt _ _ _ _ _ _ h2]
        simp [AttemptDecision.trace]
      · simp [isBackoffEvent_note]
        decide
      · intro e he
        simp only [List.mem_cons, List.not_mem_nil, or_false] at he
        rcases he with rfl | rfl
        · simp [isBackoffEvent_note]
        · simp [isBackoffEvent_note]
    · refine ⟨⟨some k, m, a, 0, lat,
          some ("timeout " ++ toString requestTimeoutMs ++ "ms")⟩, [], ?_, rfl, rfl, rfl, ?_, ?_⟩
      · rw [attemptStep_timeout_ge _ _ _ _ _ _ h2]
        simp [AttemptDecision.trace]
      · simp [isBackoffEvent_note]
        decide
      · intro e he
        simp only [List.mem_cons, List.not_mem_nil, or_false] at he
        rcases he with rfl
        simp [isBackoffEvent_note]
  | fetchErr msg lat =>
    obtain ⟨rest, hrest, hall⟩ := caughtFetchError_shape k m a tr le lat msg
    refine ⟨⟨some k, m, a, 0, lat, some ("fetch_error: " ++ msg)⟩, rest, ?_, rfl, rfl, rfl, ?_, ?_⟩
    · rw [attemptStep_fetchErr, hrest]
    · simp [isBackoffEvent_note, strStartsWith_fetchError_note]
    · intro e he
      simp only [List.mem_cons] at he
      rcases he with rfl | he
      · simp [isBackoffEvent_note, strStartsWith_fetchError_note]
      · obtain ⟨hk, hm, hs⟩ := hall e he
        exact ⟨hm, Or.inr hk, fun _ => Or.inl hs⟩

end Triage.Orchestrator

namespace Triage.Orchestrator

theorem caughtFetchError_ne_finish (k : Nat) (m : String) (a : Nat)
    (tr : List AttemptEvent) (le : Option String) (lat : Nat) (emsg : String)
    (o : ChatOutcome) : caughtFetchError k m a tr le lat emsg ≠ .finish o := by
  by_cases h : a < maxRetriesPerModel
  · rw [caughtFetchError_lt _ _ _ _ _ _ _ h]
    simp
  · rw [caughtFetchError_ge _ _ _ _ _ _ _ h]
    simp

theorem attemptStep_finish (r : Response) (k : Nat) (m : String) (a : Nat)
    (tr : List AttemptEvent) (le : Option String) (o : ChatOutcome)
    (hfin : attemptStep r k m a tr le = .finish o) :
    ∃ text st lat body, r = .http st lat body (some text) ∧
      (200 ≤ st ∧ st ≤ 299) ∧ jsTrim text ≠ "" ∧
      o = .success text m (tr ++ [⟨some k, m, a, st, lat, none⟩]) := by
  cases r with
  | http st lat body content =>
    by_cases h1 : st ∈ retryableSet
    · by_cases h2 : a < maxRetriesPerModel
      · rw [attemptStep_retryable_lt _ _ _ _ _ _ _ _ _ h1 h2] at hfin
        simp at hfin
      · rw [attemptStep_retryable_ge _ _ _ _ _ _ _ _ _ h1 h2] at hfin
        simp at hfin
    · by_cases h4 : st = 404
      · subst h4
        rw [attemptStep_404] at hfin
        simp at hfin
      · by_cases h5 : 200 ≤ st ∧ st ≤ 299
        · cases content with
          | none =>
            rw [attemptStep_ok_parseFail _ _ _ _ _ _ _ _ h5] at hfin
            exact absurd hfin (caughtFetchError_ne_finish _ _ _ _ _ _ _ _)
          | some text =>
            by_cases hemp : jsTrim text = ""
            · by_cases h2 : a < maxRetriesPerModel
              · rw [attemptStep_ok_empty_lt _ _ _ _ _ _ _ _ _ h5 hemp h2] at hfin
                simp at hfin
              · rw [attemptStep_ok_empty_ge _ _ _ _ _ _ _ _ _ h5 hemp h2] at hfin
                simp at hfin
            · rw [attemptStep_ok_success _ _ _ _ _ _ _ _ _ h5 hemp] at hfin
              refine ⟨text, st, lat, body, rfl, h5, hemp, ?_⟩
              injection hfin with h
              exact h.symm
        · rw [attemptStep_hard _ _ _ _ _ _ _ _ _ h1 h4 h5] at hfin
          exact absurd hfin (caughtFetchError_ne_finish _ _ _ _ _ _ _ _)
  | timeout lat =>
    by_cases h2 : a < maxRetriesPerModel
    · rw [attemptStep_timeout_lt _ _ _ _ _ _ h2] at hfin
      simp at hfin
    · rw [attemptStep_timeout_ge _ _ _ _ _ _ h2] at hfin
      simp at hfin
  | fetchErr msg lat =>
    rw [attemptStep_fetchErr] at hfin
    exact absurd hfin (caughtFetchError_ne_finish _ _ _ _ _ _ _ _)

theorem attemptLoop_shape (env : Nat → Response) (k : Nat) (m : String) :
    ∀ (fuel a c : Nat) (tr : List AttemptEvent) (le : Option String),
    ∃ new, (attemptLoop env k m fuel a c tr le).trace = tr ++ new ∧
      (∀ e ∈ new, e.model = m ∧ (e.apiKeyIndex = none ∨ e.apiKeyIndex = some k) ∧
        (isBackoffEvent e = true → e.status = 0 ∨ e.status ∈ retryableSet)) ∧
      (0 < fuel → ∃ e0 rest2, new = e0 :: rest2 ∧ e0.apiKeyIndex = some k ∧
        e0.model = m ∧ e0.attempt = a ∧ isBackoffEvent e0 = false) := by
  intro fuel
  induction fuel with
  | zero =>
    intro a c tr le
    exact ⟨[], by simp [attemptLoop, ModelStep.trace], by simp, by omega⟩
  | succ fuel ih =>
    intro a c tr le
    obtain ⟨e0, rest, htr, hk0, hm0, ha0, hb0, hall⟩ :=
      attemptStep_shape (env c) k m a tr le
    cases hstep : attemptStep (env c) k m a tr le with
    | finish o =>
      rw [hstep] at htr
      refine ⟨e0 :: rest, ?_, hall, fun _ => ⟨e0, rest, rfl, hk0, hm0, ha0, hb0⟩⟩
      simp only [attemptLoop, hstep]
      exact htr
    | toNextModel tr1 le1 =>
      rw [hstep] at htr
      refine ⟨e0 :: rest, ?_, hall, fun _ => ⟨e0, rest, rfl, hk0, hm0, ha0, hb0⟩⟩
      simp only [attemptLoop, hstep, ModelStep.trace]
      exact htr
    | retry tr1 le1 =>
      rw [hstep] at htr
      simp only [AttemptDecision.trace] at htr
      obtain ⟨new2, htr2, hall2, _⟩ := ih (a + 1) (c + 1) tr1 le1
      refine ⟨(e0 :: rest) ++ new2, ?_, ?_, fun _ => ⟨e0, rest ++ new2, by simp, hk0, hm0, ha0, hb0⟩⟩
      · simp only [attemptLoop, hstep]
        rw [htr2, htr, List.append_assoc]
      · intro e he
        rcases List.mem_append.mp he with he | he
        · exact hall e he
        · exact hall2 e he

theorem attemptLoop_done (env : Nat → Response) (k : Nat) (m : String) :
    ∀ (fuel a c : Nat) (tr : List AttemptEvent) (le : Option String) (o : ChatOutcome),
    attemptLoop env k m fuel a c tr le = .done o →
    ∃ text tr2, o = .success text m tr2 ∧
      ∃ e, tr2.getLast? = some e ∧ e.model = m ∧ 200 ≤ e.status ∧
        e.status ≤ 299 ∧ e.note = none ∧ e.apiKeyIndex = some k := by
  intro fuel
  induction fuel with
  | zero =>
    intro a c tr le o h
    simp [attemptLoop] at h
  | succ fuel ih =>
    intro a c tr le o h
    cases hstep : attemptStep (env c) k m a tr le with
    | finish o2 =>
      simp only [attemptLoop, hstep] at h
      injection h with h
      subst h
      obtain ⟨text, st, lat, body, _, h5, _, ho⟩ :=
        attemptStep_finish (env c) k m a tr le o2 hstep
      refine ⟨text, tr ++ [⟨some k, m, a, st, lat, none⟩], ho, ?_⟩
      exact ⟨⟨some k, m, a, st, lat, none⟩, by simp, rfl, h5.1, h5.2, rfl, rfl⟩
    | toNextModel tr1 le1 =>
      simp [attemptLoop, hstep] at h
    | retry tr1 le1 =>
      simp only [attemptLoop, hstep] at h
      exact ih (a + 1) (c + 1) tr1 le1 o h

end Triage.Orchestrator

namespace Triage.Orchestrator

theorem modelLoop_shape (env : Nat → Response) (k : Nat) :
    ∀ (models : List String) (c : Nat) (tr : List AttemptEvent) (le : Option String),
    ∃ new, (modelLoop env k models c tr le).trace = tr ++ new ∧
      ∀ e ∈ new, (e.apiKeyIndex = none ∨ e.apiKeyIndex = some k) ∧
        (isBackoffEvent e = true → e.status = 0 ∨ e.status ∈ retryableSet) := by
  intro models
  induction models with
  | nil =>
    intro c tr le
    exact ⟨[], by simp [modelLoop, ModelStep.trace], by simp⟩
  | cons m ms ih =>
    intro c tr le
    obtain ⟨new1, htr1, hall1, _⟩ :=
      attemptLoop_shape env k m (maxRetriesPerModel + 1) 0 c tr le
    cases hstep : attemptLoop env k m (maxRetriesPerModel + 1) 0 c tr le with
    | done o =>
      rw [hstep] at htr1
      refine ⟨new1, ?_, fun e he => ⟨(hall1 e he).2.1, (hall1 e he).2.2⟩⟩
      simp only [modelLoop, hstep]
      exact htr1
    | next c1 tr1 le1 =>
      rw [hstep] at htr1
      simp only [ModelStep.trace] at htr1
      obtain ⟨new2, htr2, hall2⟩ := ih c1 tr1 le1
      refine ⟨new1 ++ new2, ?_, ?_⟩
      · simp only [modelLoop, hstep]
        rw [htr2, htr1, List.append_assoc]
      · intro e he
        rcases List.mem_append.mp he with he | he
        · exact ⟨(hall1 e he).2.1, (hall1 e he).2.2⟩
        · exact hall2 e he

end Triage.Orchestrator

namespace Triage.Orchestrator

theorem modelLoop_next (env : Nat → Response) (k : Nat) :
    ∀ (models : List String) (c : Nat) (tr : List AttemptEvent) (le : Option String)
      (c1 : Nat) (tr1 : List AttemptEvent) (le1 : Option String),
    modelLoop env k models c tr le = .next c1 tr1 le1 →
    ∃ new, tr1 = tr ++ new ∧
      ∀ m ∈ models, ∃ e ∈ new, e.apiKeyIndex = some k ∧ e.model = m ∧
        e.attempt = 0 ∧ isBackoffEvent e = false := by
  intro models
  induction models with
  | nil =>
    intro c tr le c1 tr1 le1 h
    simp only [modelLoop] at h
    injection h with _ h1 _
    exact ⟨[], by simp [h1.symm], by simp⟩
  | cons m ms ih =>
    intro c tr le c1 tr1 le1 h
    obtain ⟨new1, htr1, hall1, hhead⟩ :=
      attemptLoop_shape env k m (maxRetriesPerModel + 1) 0 c tr le
    cases hstep : attemptLoop env k m (maxRetriesPerModel + 1) 0 c tr le with
    | done o =>
      simp [modelLoop, hstep] at h
    | next c2 tr2 le2 =>
      rw [hstep] at htr1
      simp only [ModelStep.trace] at htr1
      simp only [modelLoop, hstep] at h
      obtain ⟨new2, htr2, hrec⟩ := ih c2 tr2 le2 c1 tr1 le1 h
      obtain ⟨e0, rest2, hn1, hk0, hm0, ha0, hb0⟩ := hhead (by omega)
      refine ⟨new1 ++ new2, ?_, ?_⟩
      · rw [htr2, htr1, List.append_assoc]
      · intro m2 hm2
        rcases List.mem_cons.mp hm2 with rfl | hm2
        · exact ⟨e0, by simp [hn1], hk0, hm0, ha0, hb0⟩
        · obtain ⟨e, he, hprops⟩ := hrec m2 hm2
          exact ⟨e, List.mem_append_right _ he, hprops⟩

theorem modelLoop_done (env : Nat → Response) (k : Nat) :
    ∀ (models : List String) (c : Nat) (tr : List AttemptEvent) (le : Option String)
      (o : ChatOutcome),
    modelLoop env k models c tr le = .done o →
    ∃ text um tr2, o = .success text um tr2 ∧ um ∈ models ∧
      ∃ e, tr2.getLast? = some e ∧ e.model = um ∧ 200 ≤ e.status ∧
        e.status ≤ 299 ∧ e.note = none ∧ e.apiKeyIndex = some k := by
  intro models
  induction models with
  | nil =>
    intro c tr le o h
    simp [modelLoop] at h
  | cons m ms ih =>
    intro c tr le o h
    cases hstep : attemptLoop env k m (maxRetriesPerModel + 1) 0 c tr le with
    | done o2 =>
      simp only [modelLoop, hstep] at h
      injection h with h
      subst h
      obtain ⟨text, tr2, ho, e, hlast, hprops⟩ :=
        attemptLoop_done env k m _ _ _ _ _ _ hstep
      exact ⟨text, m, tr2, ho, List.mem_cons_self m ms, e, hlast, hprops⟩
    | next c2 tr2 le2 =>
      simp only [modelLoop, hstep] at h
      obtain ⟨text, um, tr3, ho, hum, hrest⟩ := ih c2 tr2 le2 o h
      exact ⟨text, um, tr3, ho, List.mem_cons_of_mem m hum, hrest⟩

end Triage.Orchestrator

namespace Triage.Orchestrator

theorem isBackoffEvent_keyFailover (k : Nat) :
    isBackoffEvent (keyFailoverEvent k) = false := by
  simp [keyFailoverEvent, isBackoffEvent_note]
  decide

theorem keyLoop_shape (env : Nat → Response) (models : List String) :
    ∀ (keys : List Nat) (c : Nat) (tr : List AttemptEvent) (le : Option String),
    ∃ new, (keyLoop env models keys c tr le).trace = tr ++ new ∧
      ∀ e ∈ new, (e.apiKeyIndex = none ∨ ∃ k ∈ keys, e.apiKeyIndex = some k) ∧
        (isBackoffEvent e = true → e.status = 0 ∨ e.status ∈ retryableSet) := by
  intro keys
  induction keys with
  | nil =>
    intro c tr le
    exact ⟨[], by simp [keyLoop, ChatOutcome.trace], by simp⟩
  | cons k ks ih =>
    intro c tr le
    obtain ⟨new1, htr1, hall1⟩ := modelLoop_shape env k models c tr le
    cases hstep : modelLoop env k models c tr le with
    | done o =>
      rw [hstep] at htr1
      simp only [ModelStep.trace] at htr1
      refine ⟨new1, ?_, ?_⟩
      · simp only [keyLoop, hstep]
        exact htr1
      · intro e he
        obtain ⟨hk, hb⟩ := hall1 e he
        refine ⟨?_, hb⟩
        rcases hk with hk | hk
        · exact Or.inl hk
        · exact Or.inr ⟨k, List.mem_cons_self k ks, hk⟩
    | next c1 tr1 le1 =>
      rw [hstep] at htr1
      simp only [ModelStep.trace] at htr1
      obtain ⟨new2, htr2, hall2⟩ := ih c1 (tr1 ++ [keyFailoverEvent k]) le1
      refine ⟨new1 ++ keyFailoverEvent k :: new2, ?_, ?_⟩
      · simp only [keyLoop, hstep]
        rw [htr2, htr1]
        simp
      · intro e he
        rcases List.mem_append.mp he with he | he
        · obtain ⟨hk, hb⟩ := hall1 e he
          refine ⟨?_, hb⟩
          rcases hk with hk | hk
          · exact Or.inl hk
          · exact Or.inr ⟨k, List.mem_cons_self k ks, hk⟩
        · rcases List.mem_cons.mp he with rfl | he
          · refine ⟨Or.inr ⟨k, List.mem_cons_self k ks, rfl⟩, ?_⟩
            rw [isBackoffEvent_keyFailover]
            intro hcontra
            exact absurd hcontra (by simp)
          · obtain ⟨hk, hb⟩ := hall2 e he
            refine ⟨?_, hb⟩
            rcases hk with hk | ⟨k2, hk2, hke⟩
            · exact Or.inl hk
            · exact Or.inr ⟨k2, List.mem_cons_of_mem k hk2, hke⟩

theorem keyLoop_failure (env : Nat → Response) (models : List String) :
    ∀ (keys : List Nat) (c : Nat) (tr : List AttemptEvent) (le : Option String)
      (msg : String) (trF : List AttemptEvent),
    keyLoop env models keys c tr le = .failure msg trF →
    ∃ new, trF = tr ++ new ∧
      ∀ k ∈ keys, keyFailoverEvent k ∈ new ∧
        ∀ m ∈ models, ∃ e ∈ new, e.apiKeyIndex = some k ∧ e.model = m ∧
          e.attempt = 0 := by
  intro keys
  induction keys with
  | nil =>
    intro c tr le msg trF h
    simp only [keyLoop] at h
    injection h with _ h1
    exact ⟨[], by simp [h1.symm], by simp⟩
  | cons k ks ih =>
    intro c tr le msg trF h
    cases hstep : modelLoop env k models c tr le with
    | done o =>
      simp only [keyLoop, hstep] at h
      obtain ⟨text, um, tr2, ho, _⟩ := modelLoop_done env k models c tr le o hstep
      rw [ho] at h
      simp at h
    | next c1 tr1 le1 =>
      simp only [keyLoop, hstep] at h
      obtain ⟨new1, htr1, hmodels⟩ := modelLoop_next env k models c tr le c1 tr1 le1 hstep
      obtain ⟨new2, htr2, hkeys⟩ := ih c1 (tr1 ++ [keyFailoverEvent k]) le1 msg trF h
      refine ⟨new1 ++ keyFailoverEvent k :: new2, ?_, ?_⟩
      · rw [htr2, htr1]
        simp
      · intro k2 hk2
        rcases List.mem_cons.mp hk2 with rfl | hk2
        · refine ⟨by simp, ?_⟩
          intro m hm
          obtain ⟨e, he, hprops⟩ := hmodels m hm
          exact ⟨e, List.mem_append_left _ he, hprops.1, hprops.2.1, hprops.2.2.1⟩
        · obtain ⟨hmem, hmods⟩ := hkeys k2 hk2
          refine ⟨List.mem_append_right _ (List.mem_cons_of_mem _ hmem), ?_⟩
          intro m hm
          obtain ⟨e, he, hprops⟩ := hmods m hm
          exact ⟨e, List.mem_append_right _ (List.mem_cons_of_mem _ he), hprops⟩

end Triage.Orchestrator

namespace Triage.Orchestrator

theorem keyLoop_success (env : Nat → Response) (models : List String) :
    ∀ (keys : List Nat) (c : Nat) (tr : List AttemptEvent) (le : Option String)
      (text um : String) (trS : List AttemptEvent),
    keyLoop env models keys c tr le = .success text um trS →
    um ∈ models ∧ ∃ e, trS.getLast? = some e ∧ e.model = um ∧
      200 ≤ e.status ∧ e.status ≤ 299 ∧ e.note = none := by
  intro keys
  induction keys with
  | nil =>
    intro c tr le text um trS h
    simp [keyLoop] at h
  | cons k ks ih =>
    intro c tr le text um trS h
    cases hstep : modelLoop env k models c tr le with
    | done o =>
      simp only [keyLoop, hstep] at h
      subst h
      obtain ⟨text2, um2, tr2, ho, hum, e, hlast, hm, h1, h2, hn, _⟩ :=
        modelLoop_done env k models c tr le _ hstep
      injection ho with ht hu htr
      subst ht
      subst hu
      subst htr
      exact ⟨hum, e, hlast, hm, h1, h2, hn⟩
    | next c1 tr1 le1 =>
      simp only [keyLoop, hstep] at h
      exact ih c1 (tr1 ++ [keyFailoverEvent k]) le1 text um trS h

end Triage.Orchestrator

/-- C1: the outcome of chat carries the accumulated attempt trace on
every path.  On failure the thrown error carries the full trace: it
contains the key-failover marker of every credential and an attempt-0
record for every credential-model pair, so nothing accumulated is
discarded; on success the returned trace ends with the successful 2xx
attempt record for the used model.  (The fatal non-2xx path also ends in
the trace-carrying throw, because its own throw is caught by the
surrounding catch and converted into a retryable fetch error.) -/
theorem triage_C1 : ∀ (numKeys : Nat) (primary : String)
    (fallback : Option String) (env : Nat → Triage.Orchestrator.Response),
    (∀ msg tr, Triage.Orchestrator.chat numKeys primary fallback env =
        .failure msg tr →
      (∀ k < numKeys, Triage.Orchestrator.keyFailoverEvent k ∈ tr) ∧
      (∀ k < numKeys, ∀ m ∈ Triage.Orchestrator.modelsToTry primary fallback,
        ∃ e ∈ tr, e.apiKeyIndex = some k ∧ e.model = m ∧ e.attempt = 0)) ∧
    (∀ text um tr, Triage.Orchestrator.chat numKeys primary fallback env =
        .success text um tr →
      um ∈ Triage.Orchestrator.modelsToTry primary fallback ∧
      ∃ e, tr.getLast? = some e ∧ e.model = um ∧ 200 ≤ e.status ∧
        e.status ≤ 299) := by
  intro numKeys primary fallback env
  constructor
  · intro msg tr h
    obtain ⟨new, htr, hkeys⟩ := Triage.Orchestrator.keyLoop_failure env
      (Triage.Orchestrator.modelsToTry primary fallback) (List.range numKeys)
      0 [] none msg tr h
    simp only [List.nil_append] at htr
    subst htr
    constructor
    · intro k hk
      exact (hkeys k (List.mem_range.mpr hk)).1
    · intro k hk m hm
      exact (hkeys k (List.mem_range.mpr hk)).2 m hm
  · intro text um tr h
    obtain ⟨hum, e, hlast, hm, h1, h2, _⟩ := Triage.Orchestrator.keyLoop_success
      env (Triage.Orchestrator.modelsToTry primary fallback)
      (List.range numKeys) 0 [] none text um tr h
    exact ⟨hum, e, hlast, hm, h1, h2⟩

/-- C1 witness: with one credential, one model and every call timing out,
chat throws a failure whose trace contains the key-failover marker. -/
theorem triage_C1_witness :
    (Triage.Orchestrator.chat 1 "p" none Triage.Orchestrator.envAllTimeout =
      .failure "OpenRouter timeout on model=p (key[0])"
        ((Triage.Orchestrator.chat 1 "p" none
          Triage.Orchestrator.envAllTimeout).trace)) ∧
    Triage.Orchestrator.keyFailoverEvent 0 ∈
      (Triage.Orchestrator.chat 1 "p" none
        Triage.Orchestrator.envAllTimeout).trace :=
  ⟨by decide,
    ((triage_C1 1 "p" none Triage.Orchestrator.envAllTimeout).1
      "OpenRouter timeout on model=p (key[0])"
      ((Triage.Orchestrator.chat 1 "p" none
        Triage.Orchestrator.envAllTimeout).trace)
      (by decide)).1 0 (by omega)⟩

/-- C4 evaluation: with a single credential and model, a first response
of HTTP 400 does not abort the search: the thrown hard error is caught by
the same attempt's catch block, recorded as a fetch_error with a backoff,
and the call is retried; the second attempt succeeds and chat returns
Success with a 4-event trace (the 400 record, the fetch_error record, the
backoff event, and the attempt-1 success record). -/
theorem triage_C4 :
    Triage.Orchestrator.chat 1 "model-a" none Triage.Orchestrator.envFatal400 =
      .success "ok" "model-a"
        ((Triage.Orchestrator.chat 1 "model-a" none
          Triage.Orchestrator.envFatal400).trace) ∧
    ((Triage.Orchestrator.chat 1 "model-a" none
      Triage.Orchestrator.envFatal400).trace).length = 4 ∧
    ((Triage.Orchestrator.chat 1 "model-a" none
      Triage.Orchestrator.envFatal400).trace).map
        Triage.Orchestrator.AttemptEvent.attempt = [0, 0, 0, 1] ∧
    ((Triage.Orchestrator.chat 1 "model-a" none
      Triage.Orchestrator.envFatal400).trace).map
        Triage.Orchestrator.AttemptEvent.status = [400, 0, 0, 200] := by
  refine ⟨?_, ?_, ?_, ?_⟩ <;> decide

/-- C3: no backoff-sleep event in any chat trace ever carries status 404
(a 404 never triggers backoff), and when the first call returns 404 the
orchestrator advances immediately: the trace begins with the 404 record
for the primary model directly followed by an attempt record for the
fallback model with attempt counter 0 on the same credential. -/
theorem triage_C3 :
    (∀ (numKeys : Nat) (primary : String) (fallback : Option String)
      (env : Nat → Triage.Orchestrator.Response),
      ∀ e ∈ (Triage.Orchestrator.chat numKeys primary fallback env).trace,
        Triage.Orchestrator.isBackoffEvent e = true → e.status ≠ 404) ∧
    (∀ (numKeys : Nat) (primary fb : String)
      (env : Nat → Triage.Orchestrator.Response) (lat : Nat) (body : String)
      (content : Option String),
      1 ≤ numKeys →
      env 0 = .http 404 lat body content →
      ∃ e1 rest,
        (Triage.Orchestrator.chat numKeys primary (some fb) env).trace =
          ⟨some 0, primary, 0, 404, lat, none⟩ :: e1 :: rest ∧
        e1.model = fb ∧ e1.attempt = 0 ∧ e1.apiKeyIndex = some 0 ∧
        Triage.Orchestrator.isBackoffEvent e1 = false) := by
  constructor
  · intro numKeys primary fallback env e he hb
    obtain ⟨new, htr, hall⟩ := Triage.Orchestrator.keyLoop_shape env
      (Triage.Orchestrator.modelsToTry primary fallback)
      (List.range numKeys) 0 [] none
    rw [Triage.Orchestrator.chat, htr, List.nil_append] at he
    rcases (hall e he).2 hb with h0 | hmem
    · omega
    · intro h404
      rw [h404] at hmem
      exact absurd hmem (by decide)
  · intro numKeys primary fb env lat body content hn henv0
    obtain ⟨n, rfl⟩ : ∃ n, numKeys = n + 1 := ⟨numKeys - 1, by omega⟩
    have hstep0 : Triage.Orchestrator.attemptStep (env 0) 0 primary 0 [] none =
        .toNextModel [⟨some 0, primary, 0, 404, lat, none⟩]
          (some ("OpenRouter 404 on model=" ++ primary ++ " (key[" ++
            toString 0 ++ "]): " ++ Triage.Orchestrator.bodySnippet body)) := by
      rw [henv0, Triage.Orchestrator.attemptStep_404]
      simp
    have hloop0 : Triage.Orchestrator.attemptLoop env 0 primary
        (Triage.Orchestrator.maxRetriesPerModel + 1) 0 0 [] none =
        .next 1 [⟨some 0, primary, 0, 404, lat, none⟩]
          (some ("OpenRouter 404 on model=" ++ primary ++ " (key[" ++
            toString 0 ++ "]): " ++ Triage.Orchestrator.bodySnippet body)) := by
      rw [show Triage.Orchestrator.maxRetriesPerModel + 1 = 2 + 1 from rfl]
      simp only [Triage.Orchestrator.attemptLoop, hstep0]
    obtain ⟨new, htr1, _, hhead⟩ := Triage.Orchestrator.attemptLoop_shape env 0 fb
      (Triage.Orchestrator.maxRetriesPerModel + 1) 0 1
      [⟨some 0, primary, 0, 404, lat, none⟩]
      (some ("OpenRouter 404 on model=" ++ primary ++ " (key[" ++
        toString 0 ++ "]): " ++ Triage.Orchestrator.bodySnippet body))
    obtain ⟨e1, rest2, hnew, hk1, hm1, ha1, hb1⟩ := hhead (by omega)
    subst hnew
    set msg404 := some ("OpenRouter 404 on model=" ++ primary ++ " (key[" ++
      toString 0 ++ "]): " ++ Triage.Orchestrator.bodySnippet body) with hmsg
    cases hstep1 : Triage.Orchestrator.attemptLoop env 0 fb
        (Triage.Orchestrator.maxRetriesPerModel + 1) 0 1
        [⟨some 0, primary, 0, 404, lat, none⟩] msg404 with
    | done o =>
      rw [hstep1] at htr1
      simp only [Triage.Orchestrator.ModelStep.trace] at htr1
      have hchat : (Triage.Orchestrator.chat (n + 1) primary (some fb) env) = o := by
        rw [Triage.Orchestrator.chat, List.range_succ_eq_map]
        simp only [Triage.Orchestrator.keyLoop]
        rw [show Triage.Orchestrator.modelLoop env 0
            (Triage.Orchestrator.modelsToTry primary (some fb)) 0 [] none =
            .done o by
          simp only [Triage.Orchestrator.modelsToTry, Triage.Orchestrator.modelLoop,
            hloop0, hstep1]]
      refine ⟨e1, rest2, ?_, hm1, ha1, hk1, hb1⟩
      rw [hchat, htr1]
      simp
    | next c1 tr1 le1 =>
      rw [hstep1] at htr1
      simp only [Triage.Orchestrator.ModelStep.trace] at htr1
      obtain ⟨new2, htr2, _⟩ := Triage.Orchestrator.keyLoop_shape env
        (Triage.Orchestrator.modelsToTry primary (some fb))
        ((List.range n).map Nat.succ) c1
        (tr1 ++ [Triage.Orchestrator.keyFailoverEvent 0]) le1
      have hchat : (Triage.Orchestrator.chat (n + 1) primary (some fb) env).trace =
          (tr1 ++ [Triage.Orchestrator.keyFailoverEvent 0]) ++ new2 := by
        rw [Triage.Orchestrator.chat, List.range_succ_eq_map]
        simp only [Triage.Orchestrator.keyLoop]
        rw [show Triage.Orchestrator.modelLoop env 0
            (Triage.Orchestrator.modelsToTry primary (some fb)) 0 [] none =
            .next c1 tr1 le1 by
          simp only [Triage.Orchestrator.modelsToTry, Triage.Orchestrator.modelLoop,
            hloop0, hstep1]]
        exact htr2
      refine ⟨e1, rest2 ++ Triage.Orchestrator.keyFailoverEvent 0 :: new2, ?_,
        hm1, ha1, hk1, hb1⟩
      rw [hchat, htr1]
      simp

/-- C6: with at least two credentials, whenever any attempt record uses
credential index 1, (i) a switch_api_key marker for credential 0 appears
strictly earlier in the trace, (ii) every candidate model already has an
attempt-0 record under credential 0 strictly earlier in the trace (the
first credential was tried exhaustively across all models first), and
(iii) no record at or after that point uses credential 0 again. -/
theorem triage_C6 : ∀ (numKeys : Nat) (primary : String)
    (fallback : Option String) (env : Nat → Triage.Orchestrator.Response),
    2 ≤ numKeys →
    ∀ (j : Nat) (e1 : Triage.Orchestrator.AttemptEvent),
      ((Triage.Orchestrator.chat numKeys primary fallback env).trace)[j]? =
        some e1 →
      e1.apiKeyIndex = some 1 →
      (∃ (i : Nat) (e0 : Triage.Orchestrator.AttemptEvent), i < j ∧
        ((Triage.Orchestrator.chat numKeys primary fallback env).trace)[i]? =
          some e0 ∧
        e0.note = some "switch_api_key" ∧ e0.apiKeyIndex = some 0) ∧
      (∀ m ∈ Triage.Orchestrator.modelsToTry primary fallback,
        ∃ (i : Nat) (e : Triage.Orchestrator.AttemptEvent), i < j ∧
        ((Triage.Orchestrator.chat numKeys primary fallback env).trace)[i]? =
          some e ∧
        e.apiKeyIndex = some 0 ∧ e.model = m ∧ e.attempt = 0) ∧
      (∀ (i : Nat) (e2 : Triage.Orchestrator.AttemptEvent), j ≤ i →
        ((Triage.Orchestrator.chat numKeys primary fallback env).trace)[i]? =
          some e2 →
        e2.apiKeyIndex ≠ some 0) := by
  intro numKeys primary fallback env hn j e1 hj hk1
  obtain ⟨n, rfl⟩ : ∃ n, numKeys = n + 1 := ⟨numKeys - 1, by omega⟩
  set models := Triage.Orchestrator.modelsToTry primary fallback with hmodels
  cases hstep : Triage.Orchestrator.modelLoop env 0 models 0 [] none with
  | done o =>
    have hchat : Triage.Orchestrator.chat (n + 1) primary fallback env = o := by
      rw [Triage.Orchestrator.chat, List.range_succ_eq_map]
      simp only [Triage.Orchestrator.keyLoop, ← hmodels, hstep]
    obtain ⟨new1, htr1, hall1⟩ := Triage.Orchestrator.modelLoop_shape env 0
      models 0 [] none
    rw [hstep] at htr1
    simp only [Triage.Orchestrator.ModelStep.trace, List.nil_append] at htr1
    rw [hchat] at hj
    rw [htr1] at hj
    have he1 : e1 ∈ new1 := by
      obtain ⟨hlt, hget⟩ := List.getElem?_eq_some_iff.mp hj
      exact hget ▸ List.getElem_mem hlt
    rcases (hall1 e1 he1).1 with h | h
    · rw [hk1] at h
      simp at h
    · rw [hk1] at h
      simp at h
  | next c1 tr1 le1 =>
    have hn1 : 1 ≤ n := by omega
    obtain ⟨new2, htr2, hall2⟩ := Triage.Orchestrator.keyLoop_shape env models
      ((List.range n).map Nat.succ) c1
      (tr1 ++ [Triage.Orchestrator.keyFailoverEvent 0]) le1
    have hchat : (Triage.Orchestrator.chat (n + 1) primary fallback env).trace =
        tr1 ++ (Triage.Orchestrator.keyFailoverEvent 0 :: new2) := by
      rw [Triage.Orchestrator.chat, List.range_succ_eq_map]
      simp only [Triage.Orchestrator.keyLoop, ← hmodels, hstep]
      rw [htr2]
      simp
    obtain ⟨new1, htr1, hall1⟩ := Triage.Orchestrator.modelLoop_shape env 0
      models 0 [] none
    rw [hstep] at htr1
    simp only [Triage.Orchestrator.ModelStep.trace, List.nil_append] at htr1
    subst htr1
    obtain ⟨new1b, htr1b, hmods⟩ := Triage.Orchestrator.modelLoop_next env 0
      models 0 [] none c1 tr1 le1 hstep
    simp only [List.nil_append] at htr1b
    rw [hchat] at hj
    have hjL : tr1.length < j := by
      rcases Nat.lt_trichotomy j tr1.length with h | h | h
      · rw [List.getElem?_append_left h] at hj
        have he1 : e1 ∈ tr1 := by
          obtain ⟨hlt, hget⟩ := List.getElem?_eq_some_iff.mp hj
          exact hget ▸ List.getElem_mem hlt
        rcases (hall1 e1 he1).1 with hh | hh <;> rw [hk1] at hh <;> simp at hh
      · rw [List.getElem?_append_right (by omega)] at hj
        rw [h, Nat.sub_self] at hj
        simp only [List.getElem?_cons_zero] at hj
        injection hj with hj
        rw [← hj] at hk1
        simp [Triage.Orchestrator.keyFailoverEvent] at hk1
      · exact h
    refine ⟨⟨tr1.length, Triage.Orchestrator.keyFailoverEvent 0, hjL, ?_, rfl, rfl⟩,
      ?_, ?_⟩
    · rw [hchat, List.getElem?_append_right (le_refl _), Nat.sub_self]
      simp
    · intro m hm
      obtain ⟨e, he, hke, hme, hae, _⟩ := hmods m hm
      rw [← htr1b] at he
      obtain ⟨i, hi⟩ := List.getElem?_of_mem he
      have hiL : i < tr1.length := (List.getElem?_eq_some_iff.mp hi).1
      refine ⟨i, e, by omega, ?_, hke, hme, hae⟩
      rw [hchat, List.getElem?_append_left hiL]
      exact hi
    · intro i e2 hij hi
      rw [hchat, List.getElem?_append_right (by omega)] at hi
      obtain ⟨d, hd⟩ : ∃ d, i - tr1.length = d + 1 := ⟨i - tr1.length - 1, by omega⟩
      rw [hd] at hi
      simp only [List.getElem?_cons_succ] at hi
      have he2 : e2 ∈ new2 := by
        obtain ⟨hlt, hget⟩ := List.getElem?_eq_some_iff.mp hi
        exact hget ▸ List.getElem_mem hlt
      rcases (hall2 e2 he2).1 with hh | ⟨k2, hk2, hke2⟩
      · rw [hh]
        simp
      · rw [hke2]
        obtain ⟨k3, _, rfl⟩ := List.mem_map.mp hk2
        simp

namespace Triage.Orchestrator

theorem attemptStep_retryable_step (r : Response) (k : Nat) (m : String)
    (a : Nat) (tr : List AttemptEvent) (le : Option String)
    (hr : RetryableResponse r) (h2 : a < maxRetriesPerModel) :
    ∃ e1 e2, attemptStep r k m a tr le = .retry (tr ++ [e1, e2]) le ∧
      isBackoffEvent e1 = false ∧ isBackoffEvent e2 = true ∧
      e1.model = m ∧ e2.model = m := by
  cases r with
  | http st lat body content =>
    have h1 : st ∈ retryableSet := hr
    refine ⟨⟨some k, m, a, st, lat, none⟩,
      ⟨some k, m, a, st, 0, some (backoffNote a)⟩,
      attemptStep_retryable_lt _ _ _ _ _ _ _ _ _ h1 h2, ?_, ?_, rfl, rfl⟩
    · simp [isBackoffEvent_note]
    · simp [isBackoffEvent_note, strStartsWith_backoffNote]
  | timeout lat =>
    refine ⟨⟨some k, m, a, 0, lat,
      some ("timeout " ++ toString requestTimeoutMs ++ "ms")⟩,
      ⟨some k, m, a, 0, 0, some (backoffNote a)⟩,
      attemptStep_timeout_lt _ _ _ _ _ _ h2, ?_, ?_, rfl, rfl⟩
    · simp [isBackoffEvent_note]
      decide
    · simp [isBackoffEvent_note, strStartsWith_backoffNote]
  | fetchErr msg lat =>
    refine ⟨⟨some k, m, a, 0, lat, some ("fetch_error: " ++ msg)⟩,
      ⟨some k, m, a, 0, 0, some (backoffNote a)⟩, ?_, ?_, ?_, rfl, rfl⟩
    · rw [attemptStep_fetchErr, caughtFetchError_lt _ _ _ _ _ _ _ h2]
    · simp [isBackoffEvent_note, strStartsWith_fetchError_note]
    · simp [isBackoffEvent_note, strStartsWith_backoffNote]

theorem attemptLoop_retryN (env : Nat → Response) (k : Nat) (m : String) :
    ∀ (N a c : Nat) (tr : List AttemptEvent) (le : Option String)
      (st lat : Nat) (body text : String),
    a + N ≤ maxRetriesPerModel →
    (∀ i, i < N → RetryableResponse (env (c + i))) →
    env (c + N) = .http st lat body (some text) →
    200 ≤ st → st ≤ 299 → jsTrim text ≠ "" →
    ∃ new, attemptLoop env k m (maxRetriesPerModel + 1 - a) a c tr le =
      .done (.success text m (tr ++ new)) ∧
      (new.filter (fun e => !isBackoffEvent e)).length = N + 1 ∧
      ∀ e ∈ new, e.model = m := by
  intro N
  induction N with
  | zero =>
    intro a c tr le st lat body text ha hretry henv h200 h299 htext
    have hfuel : maxRetriesPerModel + 1 - a = (maxRetriesPerModel - a) + 1 := by
      omega
    rw [hfuel]
    have hstep : attemptStep (env c) k m a tr le =
        .finish (.success text m (tr ++ [⟨some k, m, a, st, lat, none⟩])) := by
      rw [show c = c + 0 from rfl, henv]
      exact attemptStep_ok_success _ _ _ _ _ _ _ _ _ ⟨h200, h299⟩ htext
    refine ⟨[⟨some k, m, a, st, lat, none⟩], ?_, ?_, ?_⟩
    · simp only [attemptLoop, hstep]
    · simp [isBackoffEvent_note]
    · simp
  | succ N ih =>
    intro a c tr le st lat body text ha hretry henv h200 h299 htext
    have h2 : a < maxRetriesPerModel := by omega
    obtain ⟨e1, e2, hstep, hb1, hb2, hm1, hm2⟩ :=
      attemptStep_retryable_step (env c) k m a tr le
        (by simpa using hretry 0 (by omega)) h2
    have hfuel : maxRetriesPerModel + 1 - a = (maxRetriesPerModel - a) + 1 := by
      omega
    have hfuel2 : maxRetriesPerModel - a = maxRetriesPerModel + 1 - (a + 1) := by
      omega
    obtain ⟨new2, hloop, hcount, hmods⟩ := ih (a + 1) (c + 1) (tr ++ [e1, e2]) le
      st lat body text (by omega)
      (fun i hi => by
        have := hretry (i + 1) (by omega)
        rwa [show c + (i + 1) = c + 1 + i by omega] at this)
      (by rwa [show c + 1 + N = c + (N + 1) by omega])
      h200 h299 htext
    refine ⟨[e1, e2] ++ new2, ?_, ?_, ?_⟩
    · rw [hfuel]
      simp only [attemptLoop, hstep]
      rw [← hfuel2] at hloop
      rw [hloop, List.append_assoc]
    · simp [List.filter_append, hb1, hb2, hcount]
    · intro e he
      rcases List.mem_append.mp he with he | he
      · rcases List.mem_cons.mp he with rfl | he
        · exact hm1
        · rcases List.mem_cons.mp he with rfl | he
          · exact hm2
          · simp at he
      · exact hmods e he

end Triage.Orchestrator

/-- C2: with a single credential and a single candidate model, if the
first N calls each fail retryably (retryable HTTP status, timeout, or
transport error) with N at most perModelMaxRetries, and call N+1 returns
2xx with non-blank text, then chat returns Success for that text and
model and the trace holds exactly N+1 attempt records (non-backoff
entries), all for that model. -/
theorem triage_C2 : ∀ (N : Nat) (env : Nat → Triage.Orchestrator.Response)
    (primary : String) (st lat : Nat) (body text : String),
    N ≤ Triage.Orchestrator.maxRetriesPerModel →
    (∀ i, i < N → Triage.Orchestrator.RetryableResponse (env i)) →
    env N = .http st lat body (some text) →
    200 ≤ st → st ≤ 299 → Triage.Orchestrator.jsTrim text ≠ "" →
    ∃ tr, Triage.Orchestrator.chat 1 primary none env = .success text primary tr ∧
      Triage.Orchestrator.attemptRecordCount tr = N + 1 ∧
      ∀ e ∈ tr, e.model = primary := by
  intro N env primary st lat body text hN hretry henv h200 h299 htext
  obtain ⟨new, hloop, hcount, hmods⟩ :=
    Triage.Orchestrator.attemptLoop_retryN env 0 primary N 0 0 [] none
      st lat body text (by omega) (fun i hi => by simpa using hretry i hi)
      (by simpa using henv) h200 h299 htext
  refine ⟨new, ?_, ?_, hmods⟩
  · rw [Triage.Orchestrator.chat, show List.range 1 = [0] from rfl]
    simp only [Triage.Orchestrator.keyLoop, Triage.Orchestrator.modelsToTry,
      Triage.Orchestrator.modelLoop]
    rw [show Triage.Orchestrator.maxRetriesPerModel + 1 =
      Triage.Orchestrator.maxRetriesPerModel + 1 - 0 from rfl, hloop]
    simp
  · rw [Triage.Orchestrator.attemptRecordCount]
    simpa using hcount

/-- C2 witness: one 429 failure followed by a 2xx with text `hi` yields
Success with two attempt records. -/
theorem triage_C2_witness :
    ((1 : Nat) ≤ Triage.Orchestrator.maxRetriesPerModel ∧
      (∀ i, i < 1 → Triage.Orchestrator.RetryableResponse
        (Triage.Orchestrator.env429Once i)) ∧
      Triage.Orchestrator.env429Once 1 = .http 200 3 "body" (some "hi") ∧
      Triage.Orchestrator.jsTrim "hi" ≠ "") ∧
    (∃ tr, Triage.Orchestrator.chat 1 "m1" none Triage.Orchestrator.env429Once =
        .success "hi" "m1" tr ∧
      Triage.Orchestrator.attemptRecordCount tr = 1 + 1 ∧
      ∀ e ∈ tr, e.model = "m1") :=
  ⟨⟨by decide,
    fun i hi => by
      interval_cases i
      simp [Triage.Orchestrator.env429Once, Triage.Orchestrator.RetryableResponse,
        Triage.Orchestrator.retryableSet],
    rfl, by decide⟩,
    triage_C2 1 Triage.Orchestrator.env429Once "m1" 200 3 "body" "hi"
      (by decide)
      (fun i hi => by
        interval_cases i
        simp [Triage.Orchestrator.env429Once, Triage.Orchestrator.RetryableResponse,
          Triage.Orchestrator.retryableSet])
      rfl (by omega) (by omega) (by decide)⟩

/-- C5: a 2xx response with blank text is treated as a retryable failure.
With two candidate models, if the primary model returns an empty
completion on all three attempts (perModelMaxRetries = 2), the
orchestrator moves on to the fallback model on the same credential: the
trace starts with eight records for the primary model containing exactly
three empty_completion annotations, directly followed by the attempt-0
record for the fallback model under credential 0. -/
theorem triage_C5 : ∀ (numKeys : Nat) (primary fb : String)
    (env : Nat → Triage.Orchestrator.Response) (lat : Nat → Nat)
    (body txt : Nat → String),
    1 ≤ numKeys →
    (∀ i, i < 3 → env i = .http 200 (lat i) (body i) (some (txt i))) →
    (∀ i, i < 3 → Triage.Orchestrator.jsTrim (txt i) = "") →
    ∃ pre e8 rest,
      (Triage.Orchestrator.chat numKeys primary (some fb) env).trace =
        pre ++ e8 :: rest ∧
      pre.length = 8 ∧
      (∀ e ∈ pre, e.model = primary) ∧
      (pre.filter (fun e => e.note = some "empty_completion")).length = 3 ∧
      e8.model = fb ∧ e8.attempt = 0 ∧ e8.apiKeyIndex = some 0 ∧
      Triage.Orchestrator.isBackoffEvent e8 = false := by
  intro numKeys primary fb env lat body txt hn henv hemp
  obtain ⟨n, rfl⟩ : ∃ n, numKeys = n + 1 := ⟨numKeys - 1, by omega⟩
  set pre3 : List Triage.Orchestrator.AttemptEvent :=
    [⟨some 0, primary, 0, 200, lat 0, none⟩,
     ⟨none, primary, 0, 200, 0, some "empty_completion"⟩,
     ⟨none, primary, 0, 0, 0, some (Triage.Orchestrator.backoffNote 0)⟩] with hpre3
  set pre6 : List Triage.Orchestrator.AttemptEvent := pre3 ++
    [⟨some 0, primary, 1, 200, lat 1, none⟩,
     ⟨none, primary, 1, 200, 0, some "empty_completion"⟩,
     ⟨none, primary, 1, 0, 0, some (Triage.Orchestrator.backoffNote 1)⟩] with hpre6
  set pre8 : List Triage.Orchestrator.AttemptEvent := pre6 ++
    [⟨some 0, primary, 2, 200, lat 2, none⟩,
     ⟨none, primary, 2, 200, 0, some "empty_completion"⟩] with hpre8
  have hs0 : Triage.Orchestrator.attemptStep (env 0) 0 primary 0 [] none =
      .retry pre3 none := by
    rw [henv 0 (by omega),
      Triage.Orchestrator.attemptStep_ok_empty_lt _ _ _ _ _ _ _ _ _
        ⟨by omega, by omega⟩ (hemp 0 (by omega)) (by decide)]
    all_goals simp [hpre3]
  have hs1 : Triage.Orchestrator.attemptStep (env 1) 0 primary 1 pre3 none =
      .retry pre6 none := by
    rw [henv 1 (by omega),
      Triage.Orchestrator.attemptStep_ok_empty_lt _ _ _ _ _ _ _ _ _
        ⟨by omega, by omega⟩ (hemp 1 (by omega)) (by decide)]
  have hs2 : Triage.Orchestrator.attemptStep (env 2) 0 primary 2 pre6 none =
      .toNextModel pre8
        (some ("OpenRouter returned empty completion on model=" ++ primary)) := by
    rw [henv 2 (by omega),
      Triage.Orchestrator.attemptStep_ok_empty_ge _ _ _ _ _ _ _ _ _
        ⟨by omega, by omega⟩ (hemp 2 (by omega)) (by decide)]
  have hloop : Triage.Orchestrator.attemptLoop env 0 primary
      (Triage.Orchestrator.maxRetriesPerModel + 1) 0 0 [] none =
      .next 3 pre8
        (some ("OpenRouter returned empty completion on model=" ++ primary)) := by
    rw [show Triage.Orchestrator.maxRetriesPerModel + 1 = 2 + 1 from rfl]
    simp only [Triage.Orchestrator.attemptLoop, hs0, hs1, hs2]
  obtain ⟨new, htrF, _, hhead⟩ := Triage.Orchestrator.attemptLoop_shape env 0 fb
    (Triage.Orchestrator.maxRetriesPerModel + 1) 0 3 pre8
    (some ("OpenRouter returned empty completion on model=" ++ primary))
  obtain ⟨e8, rest2, hnew, hk8, hm8, ha8, hb8⟩ := hhead (by omega)
  subst hnew
  have hprefacts : pre8.length = 8 ∧ (∀ e ∈ pre8, e.model = primary) ∧
      (pre8.filter (fun e => e.note = some "empty_completion")).length = 3 := by
    refine ⟨by simp [hpre8, hpre6, hpre3], ?_, ?_⟩
    · intro e he
      simp only [hpre8, hpre6, hpre3] at he
      simp only [List.mem_append, List.mem_cons, List.not_mem_nil, or_false] at he
      rcases he with ((rfl | rfl | rfl) | (rfl | rfl | rfl)) | (rfl | rfl) <;> rfl
    · have hbn0 : Triage.Orchestrator.backoffNote 0 = "backoff 800ms" := by decide
      have hbn1 : Triage.Orchestrator.backoffNote 1 = "backoff 1600ms" := by decide
      simp [hpre8, hpre6, hpre3, List.filter_append, hbn0, hbn1]
  cases hstep1 : Triage.Orchestrator.attemptLoop env 0 fb
      (Triage.Orchestrator.maxRetriesPerModel + 1) 0 3 pre8
      (some ("OpenRouter returned empty completion on model=" ++ primary)) with
  | done o =>
    rw [hstep1] at htrF
    simp only [Triage.Orchestrator.ModelStep.trace] at htrF
    have hchat : Triage.Orchestrator.chat (n + 1) primary (some fb) env = o := by
      rw [Triage.Orchestrator.chat, List.range_succ_eq_map]
      simp only [Triage.Orchestrator.keyLoop]
      rw [show Triage.Orchestrator.modelLoop env 0
          (Triage.Orchestrator.modelsToTry primary (some fb)) 0 [] none =
          .done o by
        simp only [Triage.Orchestrator.modelsToTry, Triage.Orchestrator.modelLoop,
          hloop, hstep1]]
    refine ⟨pre8, e8, rest2, ?_, hprefacts.1, hprefacts.2.1, hprefacts.2.2,
      hm8, ha8, hk8, hb8⟩
    rw [hchat, htrF]
  | next c1 tr1 le1 =>
    rw [hstep1] at htrF
    simp only [Triage.Orchestrator.ModelStep.trace] at htrF
    obtain ⟨new2, htr2, _⟩ := Triage.Orchestrator.keyLoop_shape env
      (Triage.Orchestrator.modelsToTry primary (some fb))
      ((List.range n).map Nat.succ) c1
      (tr1 ++ [Triage.Orchestrator.keyFailoverEvent 0]) le1
    have hchat : (Triage.Orchestrator.chat (n + 1) primary (some fb) env).trace =
        (tr1 ++ [Triage.Orchestrator.keyFailoverEvent 0]) ++ new2 := by
      rw [Triage.Orchestrator.chat, List.range_succ_eq_map]
      simp only [Triage.Orchestrator.keyLoop]
      rw [show Triage.Orchestrator.modelLoop env 0
          (Triage.Orchestrator.modelsToTry primary (some fb)) 0 [] none =
          .next c1 tr1 le1 by
        simp only [Triage.Orchestrator.modelsToTry, Triage.Orchestrator.modelLoop,
          hloop, hstep1]]
      exact htr2
    refine ⟨pre8, e8, rest2 ++ Triage.Orchestrator.keyFailoverEvent 0 :: new2, ?_,
      hprefacts.1, hprefacts.2.1, hprefacts.2.2, hm8, ha8, hk8, hb8⟩
    rw [hchat, htrF]
    simp

/-- C3 witness: the second clause applied to a concrete environment whose
first call returns 404. -/
theorem triage_C3_witness :
    ((1 : Nat) ≤ 1 ∧ Triage.Orchestrator.env404First 0 = .http 404 7 "nf" none) ∧
    (∃ e1 rest,
      (Triage.Orchestrator.chat 1 "p" (some "f")
        Triage.Orchestrator.env404First).trace =
        ⟨some 0, "p", 0, 404, 7, none⟩ :: e1 :: rest ∧
      e1.model = "f" ∧ e1.attempt = 0 ∧ e1.apiKeyIndex = some 0 ∧
      Triage.Orchestrator.isBackoffEvent e1 = false) :=
  ⟨⟨by decide, rfl⟩,
    triage_C3.2 1 "p" "f" Triage.Orchestrator.env404First 7 "nf" none
      (by decide) rfl⟩

/-- C6 witness: with two credentials and every call on credential 0
returning 429, the record at index 6 uses credential 1, and the theorem
yields a switch_api_key marker strictly before it. -/
theorem triage_C6_witness :
    ((2 : Nat) ≤ 2 ∧
      ((Triage.Orchestrator.chat 2 "p" none
        Triage.Orchestrator.env429ThenOk).trace)[6]? =
        some ⟨some 1, "p", 0, 200, 3, none⟩ ∧
      (Triage.Orchestrator.AttemptEvent.mk (some 1) "p" 0 200 3 none).apiKeyIndex =
        some 1) ∧
    (∃ (i : Nat) (e0 : Triage.Orchestrator.AttemptEvent), i < 6 ∧
      ((Triage.Orchestrator.chat 2 "p" none
        Triage.Orchestrator.env429ThenOk).trace)[i]? = some e0 ∧
      e0.note = some "switch_api_key" ∧ e0.apiKeyIndex = some 0) :=
  ⟨⟨by decide, by decide, rfl⟩,
    (triage_C6 2 "p" none Triage.Orchestrator.env429ThenOk (by decide) 6
      ⟨some 1, "p", 0, 200, 3, none⟩ (by decide) rfl).1⟩

/-- C5 witness: the theorem applied to a concrete environment returning a
whitespace-only completion on the first three calls. -/
theorem triage_C5_witness :
    ((1 : Nat) ≤ 1 ∧
      (∀ i, i < 3 → Triage.Orchestrator.envEmpty3 i =
        .http 200 ((fun _ => 2) i) ((fun _ => "b") i)
          (some ((fun _ => "  ") i))) ∧
      (∀ i, i < 3 → Triage.Orchestrator.jsTrim ((fun _ => "  ") i) = "")) ∧
    (∃ pre e8 rest,
      (Triage.Orchestrator.chat 1 "p" (some "f")
        Triage.Orchestrator.envEmpty3).trace = pre ++ e8 :: rest ∧
      pre.length = 8 ∧
      (∀ e ∈ pre, e.model = "p") ∧
      (pre.filter (fun e => e.note = some "empty_completion")).length = 3 ∧
      e8.model = "f" ∧ e8.attempt = 0 ∧ e8.apiKeyIndex = some 0 ∧
      Triage.Orchestrator.isBackoffEvent e8 = false) :=
  ⟨⟨by decide, fun i hi => by interval_cases i <;> rfl,
    fun i _ => by
      show Triage.Orchestrator.jsTrim "  " = ""
      decide⟩,
    triage_C5 1 "p" "f" Triage.Orchestrator.envEmpty3 (fun _ => 2)
      (fun _ => "b") (fun _ => "  ") (by decide)
      (fun i hi => by interval_cases i <;> rfl)
      (fun i _ => by
        show Triage.Orchestrator.jsTrim "  " = ""
        decide)⟩
